import Mathlib

/-!
Verification of the multi-tenant employee lifecycle core of the
employee-service repository (Go).

The development is a shallow embedding of:
  * internal/biz/context.go              — tenant/user resolution from context
  * internal/biz (usecase)               — EmployeeUsecase operations
  * the normalized data layer            — employeeRepo over the two tables
    employees / employee_emails, with UNIQUE(tenant_id, email),
    FK(employee_id → employees.id, ON DELETE CASCADE) from the migration
    000003_normalize_emails.up.sql.

Machine values are modelled as follows: uuid.UUID becomes Nat (0 plays the
role of uuid.Nil, uuid.New is modelled by a fresh-id counter in the
database state), time.Time becomes Nat ticks (0 is the zero time;
time.Now() reads the clock carried in the database state), int32/int64
pagination fields become Int.  Fallible Go calls become Except; a GORM
transaction that returns an error rolls back, which state passing captures
by the caller keeping the pre-transaction state.  Repository calls made by
the usecase are counted, and event publication is recorded in an event
log, so that claims about "zero repository calls" and event payloads are
statable.
-/

namespace EmployeeService

/-- Error values observable from the core.  The first group are the kratos
error values defined in internal/biz (`tenantNotFound` / `userNotFound`
are `errors.Unauthorized`, `employeeNotFound` is `errors.NotFound`, the
rest are `errors.BadRequest`); `primaryNotFound`, `secondaryNotFound` and
`cannotMergeSame` are the inline `errors.BadRequest` values of
MergeEmployees.  The second group are storage-level failures:
`recordNotFound` is the raw gorm.ErrRecordNotFound sentinel, and the
violation constructors are driver errors for the schema constraints. -/
inductive Err where
  | tenantNotFound
  | userNotFound
  | employeeNotFound
  | employeeAlreadyExists
  | invalidEmail
  | invalidDateRange
  | invalidMerge
  | primaryNotFound
  | secondaryNotFound
  | cannotMergeSame
  | recordNotFound
  | uniqueViolation (tenantId email : String)
  | pkViolation
  | fkViolation
  deriving DecidableEq, Repr

/-- Whether an error value is one of the `errors.Unauthorized` values of
internal/biz/context.go. -/
def Err.isUnauthorized : Err → Bool
  | .tenantNotFound => true
  | .userNotFound => true
  | _ => false

/-- biz.Employee, the domain entity. -/
structure Employee where
  id : Nat
  tenantId : String
  emails : List String
  firstName : String
  lastName : String
  createdAt : Nat
  updatedAt : Nat
  deriving DecidableEq, Repr

/-- A row of the employees table (data.EmployeeModel). -/
structure EmployeeRow where
  id : Nat
  tenantId : String
  firstName : String
  lastName : String
  createdAt : Nat
  updatedAt : Nat
  deriving DecidableEq, Repr

/-- A row of the employee_emails table (data.EmployeeEmailModel).  The
surrogate primary key of this table is generated by the database and never
read by the code, so it is omitted. -/
structure EmailRow where
  employeeId : Nat
  tenantId : String
  email : String
  createdAt : Nat
  deriving DecidableEq, Repr

/-- The database: the two tables, plus a fresh-id counter standing for
uuid.New and a clock standing for time.Now. -/
structure DB where
  employees : List EmployeeRow
  emailRows : List EmailRow
  nextId : Nat
  now : Nat
  deriving DecidableEq, Repr

/-- Lifecycle events as handed to the biz.EventPublisher.  The employee
argument mirrors the Go *Employee pointer, hence Option. -/
inductive Event where
  | created (tenantId userId : String) (employee : Option Employee)
  | updated (tenantId userId : String) (employee : Option Employee)
      (updatedFields : List String)
  | deleted (tenantId userId : String) (employee : Option Employee)
  | merged (tenantId userId : String) (employee : Option Employee)
      (mergedFromEmail : String)
  deriving DecidableEq, Repr

/-- The observable state threaded through an operation: the database, the
presence of an event publisher (repo.GetEventPublisher() != nil), a count
of repository calls made by the usecase, and the log of published
events. -/
structure St where
  db : DB
  hasPublisher : Bool
  repoCalls : Nat
  events : List Event
  deriving DecidableEq, Repr

/-- The request context: tenant_id and user_id values, present or not
(context.Value returning a non-string is indistinguishable from absence
for GetTenantID/GetUserID, so Option String suffices). -/
structure Ctx where
  tenantId : Option String
  userId : Option String
  deriving DecidableEq, Repr

/-- biz.GetTenantID: fails with the Unauthorized value ErrTenantNotFound
if the context carries no tenant id or an empty one. -/
def GetTenantID (ctx : Ctx) : Except Err String :=
  match ctx.tenantId with
  | none => .error .tenantNotFound
  | some t => if t = "" then .error .tenantNotFound else .ok t

/-- biz.GetUserID: fails with the Unauthorized value ErrUserNotFound if
the context carries no user id or an empty one. -/
def GetUserID (ctx : Ctx) : Except Err String :=
  match ctx.userId with
  | none => .error .userNotFound
  | some u => if u = "" then .error .userNotFound else .ok u

/-- The Go idiom `userID, _ := GetUserID(ctx)`: the error is discarded and
the zero value "" is used. -/
def userIdOrEmpty (ctx : Ctx) : String :=
  match GetUserID ctx with
  | .ok u => u
  | .error _ => ""

/-! ## Storage primitives (schema semantics) -/

/-- INSERT INTO employees: fails on the primary-key constraint PK(id). -/
def insertEmployeeRow (db : DB) (row : EmployeeRow) : Except Err DB :=
  if db.employees.any (fun e => e.id == row.id) then
    .error .pkViolation
  else
    .ok { db with employees := db.employees ++ [row] }

/-- INSERT INTO employee_emails: fails on UNIQUE(tenant_id, email), then
on FK(employee_id → employees.id). -/
def insertEmailRow (db : DB) (row : EmailRow) : Except Err DB :=
  if db.emailRows.any (fun r => r.tenantId == row.tenantId && r.email == row.email) then
    .error (.uniqueViolation row.tenantId row.email)
  else if !(db.employees.any (fun e => e.id == row.employeeId)) then
    .error .fkViolation
  else
    .ok { db with emailRows := db.emailRows ++ [row] }

/-- Insert several email rows in order, stopping at the first failure
(each tx.Create in the Go loops). -/
def insertEmailRows (db : DB) : List EmailRow → Except Err DB
  | [] => .ok db
  | row :: rest =>
    match insertEmailRow db row with
    | .error e => .error e
    | .ok db1 => insertEmailRows db1 rest

/-- DELETE FROM employees WHERE id = ? AND tenant_id = ?, with the
ON DELETE CASCADE of employee_emails.employee_id; returns the new
database and the number of employee rows affected. -/
def deleteEmployeeRow (db : DB) (tenantId : String) (id : Nat) : DB × Nat :=
  let deleted := db.employees.filter (fun e => e.id == id && e.tenantId == tenantId)
  ({ db with
      employees := db.employees.filter (fun e => !(e.id == id && e.tenantId == tenantId)),
      emailRows := db.emailRows.filter (fun r => !(deleted.any (fun e => e.id == r.employeeId))) },
   deleted.length)

/-- The emails preloaded for an employee row: Preload("Emails") follows
the foreign key only. -/
def employeeEmails (db : DB) (id : Nat) : List EmailRow :=
  db.emailRows.filter (fun r => r.employeeId == id)

/-- EmployeeModel.ToEntity after Preload("Emails"). -/
def rowToEntity (db : DB) (row : EmployeeRow) : Employee :=
  { id := row.id
    tenantId := row.tenantId
    emails := (employeeEmails db row.id).map (fun r => r.email)
    firstName := row.firstName
    lastName := row.lastName
    createdAt := row.createdAt
    updatedAt := row.updatedAt }

/-! ## Repository core queries (employeeRepo, normalized data layer) -/

/-- employeeRepo.GetByID: First(WHERE id AND tenant_id) with
Preload("Emails"); gorm.ErrRecordNotFound is translated to
biz.ErrEmployeeNotFound, and a found model is returned hydrated.  The
Option in the success mirrors the Go *Employee result: this
implementation never returns a nil employee with a nil error. -/
def getByIdCore (db : DB) (tenantId : String) (id : Nat) :
    Except Err (Option Employee) :=
  match db.employees.find? (fun e => e.id == id && e.tenantId == tenantId) with
  | none => .error .employeeNotFound
  | some row => .ok (some (rowToEntity db row))

/-- employeeRepo.GetByEmail: First on employee_emails (WHERE email AND
tenant_id), translating gorm.ErrRecordNotFound to biz.ErrEmployeeNotFound,
then GetByID on the owning employee. -/
def getByEmailCore (db : DB) (tenantId email : String) :
    Except Err (Option Employee) :=
  match db.emailRows.find? (fun r => r.email == email && r.tenantId == tenantId) with
  | none => .error .employeeNotFound
  | some r => getByIdCore db tenantId r.employeeId

/-- employeeRepo.CheckEmailExists: COUNT on employee_emails WHERE email
AND tenant_id, returning count > 0. -/
def emailExistsB (db : DB) (tenantId email : String) : Bool :=
  decide (0 < (db.emailRows.filter
    (fun r => r.email == email && r.tenantId == tenantId)).length)

/-- employeeRepo.Create: generate an id if unset, then inside one
transaction insert the employee row and one email row per supplied email
(each email model's EmployeeID and TenantID are overwritten from the
arguments before insertion), then re-read the hydrated record after
commit.  GORM autoCreateTime/autoUpdateTime fill zero timestamps with the
current time.  The post-commit re-read cannot fail (the row was just
inserted), so the final error branch is unreachable. -/
def createCore (db0 : DB) (tenantId : String) (employee : Employee) :
    Except Err (Option Employee × DB) :=
  let gen := if employee.id == 0 then (db0.nextId, { db0 with nextId := db0.nextId + 1 })
             else (employee.id, db0)
  let id := gen.1
  let db := gen.2
  let row : EmployeeRow :=
    { id := id
      tenantId := tenantId
      firstName := employee.firstName
      lastName := employee.lastName
      createdAt := if employee.createdAt == 0 then db.now else employee.createdAt
      updatedAt := if employee.updatedAt == 0 then db.now else employee.updatedAt }
  match insertEmployeeRow db row with
  | .error e => .error e
  | .ok db1 =>
    match insertEmailRows db1 (employee.emails.map (fun email =>
        { employeeId := id, tenantId := tenantId, email := email, createdAt := db.now })) with
    | .error e => .error e
    | .ok db2 =>
      match getByIdCore db2 tenantId id with
      | .error e => .error e
      | .ok res => .ok (res, db2)

/-- The effect of the UPDATE statement of employeeRepo.Update on one
employees row: rows matching (id, tenant_id) get updated_at refreshed and
first_name / last_name overwritten only when supplied non-empty; other
rows are untouched. -/
def applyUpdate (now : Nat) (tenantId : String) (employee : Employee)
    (e : EmployeeRow) : EmployeeRow :=
  if e.id == employee.id && e.tenantId == tenantId then
    { e with
        updatedAt := now
        firstName := if employee.firstName == "" then e.firstName else employee.firstName
        lastName := if employee.lastName == "" then e.lastName else employee.lastName }
  else e

/-- employeeRepo.Update: inside one transaction, UPDATE employees SET
updated_at = now() plus first_name / last_name when non-empty, WHERE id
AND tenant_id; zero rows affected means biz.ErrEmployeeNotFound.  When a
non-empty email set is supplied, the employee's email rows are deleted
and the supplied set inserted.  After commit the record is re-read. -/
def updateCore (db : DB) (tenantId : String) (employee : Employee) :
    Except Err (Option Employee × DB) :=
  let hits := db.employees.filter (fun e => e.id == employee.id && e.tenantId == tenantId)
  if hits.length == 0 then .error .employeeNotFound
  else
    let db1 := { db with employees := db.employees.map (applyUpdate db.now tenantId employee) }
    let emailStep : Except Err DB :=
      if employee.emails.length == 0 then .ok db1
      else
        let db1e := { db1 with emailRows := db1.emailRows.filter (fun r =>
          !(r.employeeId == employee.id && r.tenantId == tenantId)) }
        insertEmailRows db1e (employee.emails.map (fun email =>
          { employeeId := employee.id, tenantId := tenantId, email := email,
            createdAt := db.now }))
    match emailStep with
    | .error e => .error e
    | .ok db2 =>
      match getByIdCore db2 tenantId employee.id with
      | .error e => .error e
      | .ok res => .ok (res, db2)

/-- employeeRepo.Delete: DELETE WHERE id AND tenant_id (cascading);
zero rows affected means biz.ErrEmployeeNotFound. -/
def deleteCore (db : DB) (tenantId : String) (id : Nat) : Except Err DB :=
  let r := deleteEmployeeRow db tenantId id
  if r.2 == 0 then .error .employeeNotFound else .ok r.1

/-- biz.ListFilter. -/
structure ListFilter where
  page : Int
  pageSize : Int
  createdAfter : Option Nat
  createdBefore : Option Nat
  deriving DecidableEq, Repr

/-- biz.ListResult. -/
structure ListResult where
  employees : List Employee
  total : Int
  deriving DecidableEq, Repr

/-- Insertion into a list kept sorted by createdAt descending. -/
def insertByCreatedDesc (e : EmployeeRow) : List EmployeeRow → List EmployeeRow
  | [] => [e]
  | x :: xs =>
    if x.createdAt < e.createdAt then e :: x :: xs
    else x :: insertByCreatedDesc e xs

/-- ORDER BY created_at DESC. -/
def sortByCreatedDesc : List EmployeeRow → List EmployeeRow
  | [] => []
  | x :: xs => insertByCreatedDesc x (sortByCreatedDesc xs)

/-- employeeRepo.List: tenant filter plus inclusive created_at bounds,
total count over the filtered set, then ORDER BY created_at DESC with
OFFSET (page-1)*pageSize and LIMIT pageSize, hydrating each row. -/
def listCore (db : DB) (tenantId : String) (filter : ListFilter) : ListResult :=
  let rows := db.employees.filter (fun e =>
    e.tenantId == tenantId
    && (match filter.createdAfter with
        | none => true
        | some t => decide (t ≤ e.createdAt))
    && (match filter.createdBefore with
        | none => true
        | some t => decide (e.createdAt ≤ t)))
  let total : Int := rows.length
  let offset := ((filter.page - 1) * filter.pageSize).toNat
  let pageRows := ((sortByCreatedDesc rows).drop offset).take filter.pageSize.toNat
  { employees := pageRows.map (rowToEntity db), total := total }

/-- The effect of the bulk UPDATE of employeeRepo.MergeEmployees on one
employee_emails row: rows owned by the secondary employee within the
tenant are reassigned to the primary employee id. -/
def reassignEmail (sId pId : Nat) (tenantId : String) (r : EmailRow) : EmailRow :=
  if r.employeeId == sId && r.tenantId == tenantId then
    { r with employeeId := pId }
  else r

/-- employeeRepo.MergeEmployees: inside one transaction, First both email
rows (a missing one surfaces the raw gorm.ErrRecordNotFound), bulk-update
employee_id of every email row of the secondary employee to the primary
id, delete the secondary employee row (cascading); after commit, re-find
the primary email row and GetByID the merged record.  The post-commit
reads cannot fail when the two emails belong to distinct employees. -/
def mergeCore (db : DB) (tenantId primaryEmail secondaryEmail : String) :
    Except Err (Option Employee × DB) :=
  match db.emailRows.find? (fun r => r.email == primaryEmail && r.tenantId == tenantId) with
  | none => .error .recordNotFound
  | some pRow =>
    match db.emailRows.find? (fun r => r.email == secondaryEmail && r.tenantId == tenantId) with
    | none => .error .recordNotFound
    | some sRow =>
      let pId := pRow.employeeId
      let sId := sRow.employeeId
      let db1 := { db with emailRows := db.emailRows.map (reassignEmail sId pId tenantId) }
      let db2 := (deleteEmployeeRow db1 tenantId sId).1
      match db2.emailRows.find? (fun r => r.email == primaryEmail && r.tenantId == tenantId) with
      | none => .error .recordNotFound
      | some pRow2 =>
        match getByIdCore db2 tenantId pRow2.employeeId with
        | .error e => .error e
        | .ok res => .ok (res, db2)

/-! ## Repository wrappers over the observable state

Each wrapper is one repository call made by the usecase, so it increments
the call counter; a transaction error leaves the database unchanged
(rollback). -/

/-- Count one repository call. -/
def bump (st : St) : St := { st with repoCalls := st.repoCalls + 1 }

def repoCheckEmailExists (st : St) (tenantId email : String) :
    Except Err Bool × St :=
  (.ok (emailExistsB st.db tenantId email), bump st)

def repoGetByID (st : St) (tenantId : String) (id : Nat) :
    Except Err (Option Employee) × St :=
  (getByIdCore st.db tenantId id, bump st)

def repoGetByEmail (st : St) (tenantId email : String) :
    Except Err (Option Employee) × St :=
  (getByEmailCore st.db tenantId email, bump st)

def repoCreate (st : St) (tenantId : String) (employee : Employee) :
    Except Err (Option Employee) × St :=
  match createCore st.db tenantId employee with
  | .error e => (.error e, bump st)
  | .ok (res, db2) => (.ok res, { bump st with db := db2 })

def repoUpdate (st : St) (tenantId : String) (employee : Employee) :
    Except Err (Option Employee) × St :=
  match updateCore st.db tenantId employee with
  | .error e => (.error e, bump st)
  | .ok (res, db2) => (.ok res, { bump st with db := db2 })

def repoDelete (st : St) (tenantId : String) (id : Nat) :
    Except Err Unit × St :=
  match deleteCore st.db tenantId id with
  | .error e => (.error e, bump st)
  | .ok db2 => (.ok (), { bump st with db := db2 })

def repoList (st : St) (tenantId : String) (filter : ListFilter) :
    Except Err ListResult × St :=
  (.ok (listCore st.db tenantId filter), bump st)

def repoMerge (st : St) (tenantId primaryEmail secondaryEmail : String) :
    Except Err (Option Employee) × St :=
  match mergeCore st.db tenantId primaryEmail secondaryEmail with
  | .error e => (.error e, bump st)
  | .ok (res, db2) => (.ok res, { bump st with db := db2 })

/-- Publishing an event: a no-op when the repository has no publisher;
publish failures are logged and discarded by the usecase, so the
successful append is the only observable effect. -/
def publish (st : St) (ev : Event) : St :=
  if st.hasPublisher then { st with events := st.events ++ [ev] } else st

/-! ## EmployeeUsecase operations (internal/biz/employee_usecase.go) -/

/-- The CreateEmployee pre-check loop: for each supplied email, ask
CheckEmailExists; any hit aborts with ErrEmployeeAlreadyExists. -/
def checkEmailsLoop (st : St) (tenantId : String) :
    List String → Except Err Unit × St
  | [] => (.ok (), st)
  | email :: rest =>
    match repoCheckEmailExists st tenantId email with
    | (.error e, st1) => (.error e, st1)
    | (.ok found, st1) =>
      if found then (.error .employeeAlreadyExists, st1)
      else checkEmailsLoop st1 tenantId rest

/-- EmployeeUsecase.CreateEmployee. -/
def CreateEmployee (ctx : Ctx) (st : St) (employee : Employee) :
    Except Err (Option Employee) × St :=
  match GetTenantID ctx with
  | .error e => (.error e, st)
  | .ok tenantId =>
    if employee.emails.length == 0 then (.error .invalidEmail, st)
    else
      match checkEmailsLoop st tenantId employee.emails with
      | (.error e, st1) => (.error e, st1)
      | (.ok _, st1) =>
        let employee := { employee with tenantId := tenantId }
        match repoCreate st1 tenantId employee with
        | (.error e, st2) => (.error e, st2)
        | (.ok created, st2) =>
          (.ok created, publish st2 (.created tenantId (userIdOrEmpty ctx) created))

/-- The UpdateEmployee ownership/uniqueness loop: an email already owned
by this employee is skipped; a new email owned elsewhere in the tenant
aborts with ErrEmployeeAlreadyExists. -/
def checkNewEmailsLoop (st : St) (tenantId : String) (owned : List String) :
    List String → Except Err Unit × St
  | [] => (.ok (), st)
  | email :: rest =>
    if owned.contains email then checkNewEmailsLoop st tenantId owned rest
    else
      match repoCheckEmailExists st tenantId email with
      | (.error e, st1) => (.error e, st1)
      | (.ok found, st1) =>
        if found then (.error .employeeAlreadyExists, st1)
        else checkNewEmailsLoop st1 tenantId owned rest

/-- The changed-field list of UpdateEmployee, in the order the Go code
appends: "emails" whenever a non-empty email set is supplied, then
"first_name" / "last_name" when supplied non-empty and different from the
existing record. -/
def updatedFieldsOf (existing employee : Employee) : List String :=
  (if employee.emails.length == 0 then [] else ["emails"])
    ++ (if employee.firstName ≠ "" ∧ employee.firstName ≠ existing.firstName
        then ["first_name"] else [])
    ++ (if employee.lastName ≠ "" ∧ employee.lastName ≠ existing.lastName
        then ["last_name"] else [])

/-- EmployeeUsecase.UpdateEmployee. -/
def UpdateEmployee (ctx : Ctx) (st : St) (employee : Employee) :
    Except Err (Option Employee) × St :=
  match GetTenantID ctx with
  | .error e => (.error e, st)
  | .ok tenantId =>
    match repoGetByID st tenantId employee.id with
    | (.error e, st1) => (.error e, st1)
    | (.ok none, st1) => (.error .employeeNotFound, st1)
    | (.ok (some existing), st1) =>
      match (if employee.emails.length == 0 then (.ok (), st1)
             else checkNewEmailsLoop st1 tenantId existing.emails employee.emails) with
      | (.error e, st2) => (.error e, st2)
      | (.ok _, st2) =>
        let updatedFields := updatedFieldsOf existing employee
        let employee := { employee with tenantId := tenantId }
        match repoUpdate st2 tenantId employee with
        | (.error e, st3) => (.error e, st3)
        | (.ok updated, st3) =>
          (.ok updated,
           publish st3 (.updated tenantId (userIdOrEmpty ctx) updated updatedFields))

/-- EmployeeUsecase.DeleteEmployee. -/
def DeleteEmployee (ctx : Ctx) (st : St) (id : Nat) :
    Except Err Unit × St :=
  match GetTenantID ctx with
  | .error e => (.error e, st)
  | .ok tenantId =>
    match repoGetByID st tenantId id with
    | (.error e, st1) => (.error e, st1)
    | (.ok none, st1) => (.error .employeeNotFound, st1)
    | (.ok (some existing), st1) =>
      match repoDelete st1 tenantId id with
      | (.error e, st2) => (.error e, st2)
      | (.ok _, st2) =>
        (.ok (), publish st2 (.deleted tenantId (userIdOrEmpty ctx) (some existing)))

/-- EmployeeUsecase.GetEmployee. -/
def GetEmployee (ctx : Ctx) (st : St) (id : Nat) :
    Except Err (Option Employee) × St :=
  match GetTenantID ctx with
  | .error e => (.error e, st)
  | .ok tenantId =>
    match repoGetByID st tenantId id with
    | (.error e, st1) => (.error e, st1)
    | (.ok none, st1) => (.error .employeeNotFound, st1)
    | (.ok (some employee), st1) => (.ok (some employee), st1)

/-- EmployeeUsecase.GetEmployeeByEmail. -/
def GetEmployeeByEmail (ctx : Ctx) (st : St) (email : String) :
    Except Err (Option Employee) × St :=
  match GetTenantID ctx with
  | .error e => (.error e, st)
  | .ok tenantId =>
    match repoGetByEmail st tenantId email with
    | (.error e, st1) => (.error e, st1)
    | (.ok none, st1) => (.error .employeeNotFound, st1)
    | (.ok (some employee), st1) => (.ok (some employee), st1)

/-- Whether both bounds are set with created_after strictly later than
created_before (time.After is strict). -/
def badDateRange (filter : ListFilter) : Bool :=
  match filter.createdAfter, filter.createdBefore with
  | some a, some b => decide (b < a)
  | _, _ => false

/-- EmployeeUsecase.ListEmployees.  The Go code mutates the *ListFilter in
place when clamping, and the transport layer reads the mutated filter to
report effective pagination; the returned ListFilter models that
mutation. -/
def ListEmployees (ctx : Ctx) (st : St) (filter : ListFilter) :
    Except Err ListResult × St × ListFilter :=
  match GetTenantID ctx with
  | .error e => (.error e, st, filter)
  | .ok tenantId =>
    let filter := if filter.page ≤ 0 then { filter with page := 1 } else filter
    let filter := if filter.pageSize ≤ 0 then { filter with pageSize := 20 } else filter
    let filter := if 100 < filter.pageSize then { filter with pageSize := 100 } else filter
    if badDateRange filter then (.error .invalidDateRange, st, filter)
    else
      match repoList st tenantId filter with
      | (res, st1) => (res, st1, filter)

/-- EmployeeUsecase.MergeEmployees. -/
def MergeEmployees (ctx : Ctx) (st : St) (primaryEmail secondaryEmail : String) :
    Except Err (Option Employee) × St :=
  match GetTenantID ctx with
  | .error e => (.error e, st)
  | .ok tenantId =>
    if primaryEmail == secondaryEmail then (.error .invalidMerge, st)
    else
      match repoGetByEmail st tenantId primaryEmail with
      | (.error e, st1) => (.error e, st1)
      | (.ok none, st1) => (.error .primaryNotFound, st1)
      | (.ok (some primary), st1) =>
        match repoGetByEmail st1 tenantId secondaryEmail with
        | (.error e, st2) => (.error e, st2)
        | (.ok none, st2) => (.error .secondaryNotFound, st2)
        | (.ok (some secondary), st2) =>
          if primary.id == secondary.id then (.error .cannotMergeSame, st2)
          else
            match repoMerge st2 tenantId primaryEmail secondaryEmail with
            | (.error e, st3) => (.error e, st3)
            | (.ok merged, st3) =>
              (.ok merged,
               publish st3 (.merged tenantId (userIdOrEmpty ctx) merged secondaryEmail))

/-! ## General list helpers -/

/-- find? locates a given member when the predicate picks it uniquely. -/
theorem find?_eq_some_of_unique {α} {l : List α} {p : α → Bool} {x : α}
    (hx : x ∈ l) (hpx : p x = true)
    (huniq : ∀ a ∈ l, p a = true → a = x) : l.find? p = some x := by
  induction l with
  | nil => cases hx
  | cons y ys ih =>
    rw [List.find?_cons]
    cases hy : p y with
    | false =>
      rcases List.mem_cons.mp hx with h | h
      · subst h; rw [hpx] at hy; cases hy
      · exact ih h (fun a ha hpa => huniq a (List.mem_cons_of_mem _ ha) hpa)
    | true =>
      have := huniq y (List.mem_cons_self _ _) hy
      rw [this]

/-- find? is determined by the restriction of the predicate to the list. -/
theorem find?_congr_pred {α} {l : List α} {p q : α → Bool}
    (h : ∀ x ∈ l, p x = q x) : l.find? p = l.find? q := by
  induction l with
  | nil => rfl
  | cons y ys ih =>
    rw [List.find?_cons, List.find?_cons, h y (List.mem_cons_self _ _)]
    cases q y
    · exact ih (fun x hx => h x (List.mem_cons_of_mem _ hx))
    · rfl

/-! ## Execution lemmas for the embedded operations -/

/-- Unfolding emailExistsB as an existence statement. -/
theorem emailExistsB_iff (db : DB) (t em : String) :
    emailExistsB db t em = true ↔ ∃ r ∈ db.emailRows, r.email = em ∧ r.tenantId = t := by
  unfold emailExistsB
  rw [decide_eq_true_iff, List.length_pos_iff_exists_mem]
  constructor
  · rintro ⟨r, hr⟩
    rcases List.mem_filter.mp hr with ⟨hmem, hp⟩
    simp only [Bool.and_eq_true, beq_iff_eq] at hp
    exact ⟨r, hmem, hp.1, hp.2⟩
  · rintro ⟨r, hmem, h1, h2⟩
    exact ⟨r, List.mem_filter.mpr ⟨hmem, by simp [h1, h2]⟩⟩

/-- bump changes only the call counter. -/
theorem bump_fields (st : St) :
    (bump st).db = st.db ∧ (bump st).events = st.events ∧
      (bump st).hasPublisher = st.hasPublisher := ⟨rfl, rfl, rfl⟩

/-- The CreateEmployee pre-check loop succeeds, leaving the database and
events untouched, when no supplied email is taken in the tenant. -/
theorem checkEmailsLoop_ok (t : String) :
    ∀ (es : List String) (st : St),
      (∀ e ∈ es, emailExistsB st.db t e = false) →
      ∃ st1, checkEmailsLoop st t es = (.ok (), st1) ∧ st1.db = st.db ∧
        st1.events = st.events ∧ st1.hasPublisher = st.hasPublisher
  | [], st, _ => ⟨st, rfl, rfl, rfl, rfl⟩
  | e :: rest, st, h => by
    have he : emailExistsB st.db t e = false := h e (List.mem_cons_self _ _)
    have hrest : ∀ x ∈ rest, emailExistsB (bump st).db t x = false :=
      fun x hx => h x (List.mem_cons_of_mem _ hx)
    rcases checkEmailsLoop_ok t rest (bump st) hrest with ⟨st1, heq, hdb, hev, hpub⟩
    refine ⟨st1, ?_, hdb, hev, hpub⟩
    simp only [checkEmailsLoop, repoCheckEmailExists, he, Bool.false_eq_true, if_false]
    exact heq

/-- The CreateEmployee pre-check loop aborts with ErrEmployeeAlreadyExists,
leaving the database and events untouched, when some supplied email is
already taken in the tenant. -/
theorem checkEmailsLoop_hit (t : String) :
    ∀ (es : List String) (st : St) (e : String), e ∈ es →
      emailExistsB st.db t e = true →
      ∃ st1, checkEmailsLoop st t es = (.error .employeeAlreadyExists, st1) ∧
        st1.db = st.db ∧ st1.events = st.events
  | [], _, _, he, _ => absurd he (List.not_mem_nil _)
  | a :: rest, st, e, he, hex => by
    by_cases ha : emailExistsB st.db t a = true
    · exact ⟨bump st, by simp only [checkEmailsLoop, repoCheckEmailExists, ha, if_true], rfl, rfl⟩
    · have ha' : emailExistsB st.db t a = false := Bool.eq_false_iff.mpr ha
      have hne : e ≠ a := fun h => ha (h ▸ hex)
      have he' : e ∈ rest := by
        rcases List.mem_cons.mp he with h | h
        · exact absurd h hne
        · exact h
      rcases checkEmailsLoop_hit t rest (bump st) e he' hex with ⟨st1, heq, hdb, hev⟩
      exact ⟨st1, by
        simp only [checkEmailsLoop, repoCheckEmailExists, ha', Bool.false_eq_true, if_false]
        exact heq, hdb, hev⟩

/-- The UpdateEmployee ownership loop succeeds, leaving the database and
events untouched, when every supplied email not already owned is free in
the tenant. -/
theorem checkNewEmailsLoop_ok (t : String) (owned : List String) :
    ∀ (es : List String) (st : St),
      (∀ e ∈ es, e ∉ owned → emailExistsB st.db t e = false) →
      ∃ st1, checkNewEmailsLoop st t owned es = (.ok (), st1) ∧ st1.db = st.db ∧
        st1.events = st.events ∧ st1.hasPublisher = st.hasPublisher
  | [], st, _ => ⟨st, rfl, rfl, rfl, rfl⟩
  | e :: rest, st, h => by
    by_cases hc : e ∈ owned
    · rcases checkNewEmailsLoop_ok t owned rest st
        (fun x hx => h x (List.mem_cons_of_mem _ hx)) with ⟨st1, heq, hdb, hev, hpub⟩
      refine ⟨st1, ?_, hdb, hev, hpub⟩
      have hcb : owned.contains e = true := List.elem_iff.mpr hc
      simp only [checkNewEmailsLoop, hcb, if_true]
      exact heq
    · have he : emailExistsB st.db t e = false := h e (List.mem_cons_self _ _) hc
      rcases checkNewEmailsLoop_ok t owned rest (bump st)
        (fun x hx => h x (List.mem_cons_of_mem _ hx)) with ⟨st1, heq, hdb, hev, hpub⟩
      refine ⟨st1, ?_, hdb, hev, hpub⟩
      have hcb : owned.contains e = false :=
        Bool.eq_false_iff.mpr (fun hh => hc (List.elem_iff.mp hh))
      simp only [checkNewEmailsLoop, hcb, Bool.false_eq_true, if_false,
        repoCheckEmailExists, he]
      exact heq

/-- A successful run of insertEmailRows appends exactly the given rows and
touches nothing else. -/
theorem insertEmailRows_ok_eq :
    ∀ (rows : List EmailRow) (db db2 : DB), insertEmailRows db rows = .ok db2 →
      db2.employees = db.employees ∧ db2.emailRows = db.emailRows ++ rows ∧
        db2.nextId = db.nextId ∧ db2.now = db.now
  | [], db, db2, h => by
    cases h
    exact ⟨rfl, (List.append_nil _).symm, rfl, rfl⟩
  | row :: rest, db, db2, h => by
    unfold insertEmailRows at h
    cases hins : insertEmailRow db row with
    | error e => rw [hins] at h; cases h
    | ok db1 =>
      rw [hins] at h
      unfold insertEmailRow at hins
      by_cases h1 : db.emailRows.any
          (fun r => r.tenantId == row.tenantId && r.email == row.email) = true
      · rw [if_pos h1] at hins; cases hins
      · rw [if_neg h1] at hins
        by_cases h2 : (!db.employees.any (fun e => e.id == row.employeeId)) = true
        · rw [if_pos h2] at hins; cases hins
        · rw [if_neg h2] at hins
          cases hins
          rcases insertEmailRows_ok_eq rest _ db2 h with ⟨ha, hb, hc, hd⟩
          refine ⟨ha, ?_, hc, hd⟩
          rw [hb]
          simp

/-- insertEmailRows succeeds when the inserted rows collide neither with
the existing table nor among themselves and each references an existing
employee. -/
theorem insertEmailRows_ok :
    ∀ (rows : List EmailRow) (db : DB),
      (∀ row ∈ rows, ∀ r ∈ db.emailRows,
        ¬(r.tenantId = row.tenantId ∧ r.email = row.email)) →
      rows.Pairwise (fun a b => ¬(a.tenantId = b.tenantId ∧ a.email = b.email)) →
      (∀ row ∈ rows, ∃ e ∈ db.employees, e.id = row.employeeId) →
      insertEmailRows db rows = .ok { db with emailRows := db.emailRows ++ rows }
  | [], db, _, _, _ => by simp [insertEmailRows]
  | row :: rest, db, h1, h2, h3 => by
    have hnone : db.emailRows.any
        (fun r => r.tenantId == row.tenantId && r.email == row.email) = false := by
      rw [Bool.eq_false_iff]
      intro hany
      rcases List.any_eq_true.mp hany with ⟨r, hr, hp⟩
      simp only [Bool.and_eq_true, beq_iff_eq] at hp
      exact h1 row (List.mem_cons_self _ _) r hr ⟨hp.1, hp.2⟩
    have hfk : db.employees.any (fun e => e.id == row.employeeId) = true := by
      rcases h3 row (List.mem_cons_self _ _) with ⟨e, he, hid⟩
      exact List.any_eq_true.mpr ⟨e, he, beq_iff_eq.mpr hid⟩
    have step : insertEmailRow db row = .ok { db with emailRows := db.emailRows ++ [row] } := by
      unfold insertEmailRow
      rw [hnone, hfk]
      simp
    rcases List.pairwise_cons.mp h2 with ⟨hhead, htail⟩
    have h1' : ∀ r2 ∈ rest, ∀ r ∈ ({ db with emailRows := db.emailRows ++ [row] } : DB).emailRows,
        ¬(r.tenantId = r2.tenantId ∧ r.email = r2.email) := by
      intro r2 hr2 r hr
      rcases List.mem_append.mp hr with h | h
      · exact h1 r2 (List.mem_cons_of_mem _ hr2) r h
      · rcases List.mem_singleton.mp h with rfl
        intro hcol
        exact hhead r2 hr2 ⟨hcol.1, hcol.2⟩
    have h3' : ∀ r2 ∈ rest, ∃ e ∈ ({ db with emailRows := db.emailRows ++ [row] } : DB).employees,
        e.id = r2.employeeId := fun r2 hr2 => h3 r2 (List.mem_cons_of_mem _ hr2)
    have ih := insertEmailRows_ok rest { db with emailRows := db.emailRows ++ [row] } h1' htail h3'
    have hstep : insertEmailRows db (row :: rest) =
        insertEmailRows { db with emailRows := db.emailRows ++ [row] } rest := by
      conv_lhs => rw [insertEmailRows]
      rw [step]
    rw [hstep, ih]
    simp

/-- GetTenantID fails with ErrTenantNotFound when the context lacks
tenant identity (absent or empty tenant id). -/
theorem getTenantID_fails (ctx : Ctx)
    (h : ctx.tenantId = none ∨ ctx.tenantId = some "") :
    GetTenantID ctx = .error .tenantNotFound := by
  unfold GetTenantID
  rcases h with h | h
  · rw [h]
  · rw [h]
    simp

/-! ## Claims -/

/-- C9: every Usecase operation (create, update, delete, get, getByEmail,
list, merge) invoked with a context lacking tenant identity (absent or
empty tenant id) fails with the Unauthorized error ErrTenantNotFound and
returns the state unchanged — in particular the repository-call counter
is untouched, i.e. zero repository calls are performed. -/
theorem c9_unauthorized_without_tenant_and_zero_repo_calls (ctx : Ctx) (st : St)
    (h : ctx.tenantId = none ∨ ctx.tenantId = some "") :
    (∀ employee, CreateEmployee ctx st employee = (.error .tenantNotFound, st)) ∧
    (∀ employee, UpdateEmployee ctx st employee = (.error .tenantNotFound, st)) ∧
    (∀ id, DeleteEmployee ctx st id = (.error .tenantNotFound, st)) ∧
    (∀ id, GetEmployee ctx st id = (.error .tenantNotFound, st)) ∧
    (∀ email, GetEmployeeByEmail ctx st email = (.error .tenantNotFound, st)) ∧
    (∀ filter, ListEmployees ctx st filter = (.error .tenantNotFound, st, filter)) ∧
    (∀ p s, MergeEmployees ctx st p s = (.error .tenantNotFound, st)) ∧
    Err.tenantNotFound.isUnauthorized = true := by
  have hT := getTenantID_fails ctx h
  refine ⟨fun employee => ?_, fun employee => ?_, fun id => ?_, fun id => ?_,
    fun email => ?_, fun filter => ?_, fun p s => ?_, rfl⟩
  · simp only [CreateEmployee, hT]
  · simp only [UpdateEmployee, hT]
  · simp only [DeleteEmployee, hT]
  · simp only [GetEmployee, hT]
  · simp only [GetEmployeeByEmail, hT]
  · simp only [ListEmployees, hT]
  · simp only [MergeEmployees, hT]

/-- Witness for C9 at a concrete context with no tenant id. -/
theorem c9_witness :
    CreateEmployee ⟨none, some "u1"⟩
        ⟨⟨[], [], 1, 0⟩, true, 0, []⟩
        ⟨0, "", ["a@x"], "J", "D", 0, 0⟩ =
      (.error .tenantNotFound, ⟨⟨[], [], 1, 0⟩, true, 0, []⟩) :=
  (c9_unauthorized_without_tenant_and_zero_repo_calls ⟨none, some "u1"⟩
    ⟨⟨[], [], 1, 0⟩, true, 0, []⟩ (Or.inl rfl)).1 ⟨0, "", ["a@x"], "J", "D", 0, 0⟩

/-- C6: ListEmployees never rejects a pagination value: page <= 0 becomes
1, pageSize <= 0 becomes 20, pageSize > 100 becomes 100, the date bounds
are untouched, and the caller observes the effective (clamped) filter
alongside the result; the only possible rejections are Unauthorized
(handled elsewhere) and InvalidDateRange, which does not depend on the
pagination values. -/
theorem c6_list_clamps_pagination (ctx : Ctx) (st : St) (filter : ListFilter)
    (T : String) (hT : GetTenantID ctx = .ok T) :
    ListEmployees ctx st filter =
      (let eff : ListFilter :=
        { filter with
            page := if filter.page ≤ 0 then 1 else filter.page
            pageSize := if filter.pageSize ≤ 0 then 20
                        else if 100 < filter.pageSize then 100 else filter.pageSize }
       if badDateRange filter then (.error .invalidDateRange, st, eff)
       else (.ok (listCore st.db T eff), bump st, eff)) := by
  simp only [ListEmployees, hT, repoList]
  have hdates : ∀ (p q : Int), badDateRange { filter with page := p, pageSize := q } =
      badDateRange filter := by
    intro p q
    unfold badDateRange
    rfl
  by_cases hp : filter.page ≤ 0 <;> by_cases hs : filter.pageSize ≤ 0
  · have h100 : ¬((100 : Int) < 20) := by norm_num
    simp only [hp, hs, if_true, h100, if_false]
    try rw [hdates]
    try rfl
  · by_cases hl : 100 < filter.pageSize
    · simp only [hp, hs, hl, if_true, if_false]
      try rw [hdates]
      try rfl
    · simp only [hp, hs, hl, if_true, if_false]
      try rw [hdates]
      try rfl
  · have h100 : ¬((100 : Int) < 20) := by norm_num
    simp only [hp, hs, if_true, h100, if_false]
    try rw [hdates]
    try rfl
  · by_cases hl : 100 < filter.pageSize
    · simp only [hp, hs, hl, if_true, if_false]
      try rw [hdates]
      try rfl
    · simp only [hp, hs, hl, if_true, if_false]
      try rw [hdates]
      try rfl

/-- Witness for C6: page 0 and pageSize 500 become 1 and 100. -/
theorem c6_witness :
    GetTenantID ⟨some "t1", some "u1"⟩ = .ok "t1" ∧
    ListEmployees ⟨some "t1", some "u1"⟩ ⟨⟨[], [], 1, 0⟩, true, 0, []⟩
        ⟨0, 500, none, none⟩ =
      (.ok (listCore ⟨[], [], 1, 0⟩ "t1" ⟨1, 100, none, none⟩),
       bump ⟨⟨[], [], 1, 0⟩, true, 0, []⟩, ⟨1, 100, none, none⟩) :=
  ⟨rfl, c6_list_clamps_pagination ⟨some "t1", some "u1"⟩ ⟨⟨[], [], 1, 0⟩, true, 0, []⟩
    ⟨0, 500, none, none⟩ "t1" rfl⟩

/-- C3 (code bug): when the CreateEmployee uniqueness pre-check passes
but the repository create then fails on the storage-level
UNIQUE(tenant_id, email) constraint, the Usecase propagates the raw
storage error instead of AlreadyExists — employee_usecase.go returns
repo.Create's error unchanged and no translation of constraint
violations exists anywhere in the usecase.  Concretely: creating an
employee whose request carries the same email twice passes the pre-check
(both lookups run against the unmodified table) and the second insert
violates the constraint inside the transaction; the caller sees the
storage error, not ErrEmployeeAlreadyExists. -/
theorem c3_constraint_violation_surfaces_as_storage_error :
    (CreateEmployee ⟨some "t1", some "u1"⟩ ⟨⟨[], [], 1, 5⟩, false, 0, []⟩
        ⟨0, "", ["a@x", "a@x"], "J", "D", 0, 0⟩).1 =
      .error (.uniqueViolation "t1" "a@x") ∧
    Err.uniqueViolation "t1" "a@x" ≠ Err.employeeAlreadyExists := by
  exact ⟨rfl, by decide⟩

/-- C4 counterexample: with the concrete repository, a merge whose
primary email does not resolve returns the generic ErrEmployeeNotFound,
not the PRIMARY_NOT_FOUND variant, because employeeRepo.GetByEmail
signals absence with an error rather than a nil result; likewise for the
secondary email.  Evaluated on an empty tenant and on a tenant holding
only the primary employee. -/
theorem c4_counterexample :
    (MergeEmployees ⟨some "t1", some "u1"⟩ ⟨⟨[], [], 1, 0⟩, false, 0, []⟩
        "p@x" "s@x").1 = .error .employeeNotFound ∧
    Err.employeeNotFound ≠ Err.primaryNotFound ∧
    (MergeEmployees ⟨some "t1", some "u1"⟩
        ⟨⟨[⟨1, "t1", "J", "D", 5, 5⟩], [⟨1, "t1", "p@x", 5⟩], 2, 5⟩, false, 0, []⟩
        "p@x" "s@x").1 = .error .employeeNotFound ∧
    Err.employeeNotFound ≠ Err.secondaryNotFound := by
  refine ⟨rfl, by decide, rfl, by decide⟩

/-- C4 (amended): for every tenant and pair of distinct emails, when the
primary email does not resolve within the tenant — or the primary
resolves and the secondary does not — MergeEmployees returns the generic
NotFound error (ErrEmployeeNotFound) propagated from the repository; the
merge-specific PrimaryNotFound / SecondaryNotFound branches never fire
with this repository, which reports absence by error instead of a nil
result. -/
theorem c4_merge_missing_email_gives_generic_not_found :
    (∀ (ctx : Ctx) (st : St) (T p s : String), GetTenantID ctx = .ok T → p ≠ s →
       getByEmailCore st.db T p = .error .employeeNotFound →
       (MergeEmployees ctx st p s).1 = .error .employeeNotFound) ∧
    (∀ (ctx : Ctx) (st : St) (T p s : String) (P : Employee),
       GetTenantID ctx = .ok T → p ≠ s →
       getByEmailCore st.db T p = .ok (some P) →
       getByEmailCore st.db T s = .error .employeeNotFound →
       (MergeEmployees ctx st p s).1 = .error .employeeNotFound) := by
  constructor
  · intro ctx st T p s hT hps hp
    have hbe : (p == s) = false := beq_eq_false_iff_ne.mpr hps
    simp only [MergeEmployees, hT, hbe, Bool.false_eq_true, if_false,
      repoGetByEmail, hp]
  · intro ctx st T p s P hT hps hp hs
    have hbe : (p == s) = false := beq_eq_false_iff_ne.mpr hps
    simp only [MergeEmployees, hT, hbe, Bool.false_eq_true, if_false,
      repoGetByEmail, hp, hs]
    have hdb : (bump st).db = st.db := rfl
    simp only [hdb, hs]

/-- Witness for the amended C4 at concrete inputs. -/
theorem c4_amended_witness :
    (GetTenantID ⟨some "t9", some "u1"⟩ = .ok "t9" ∧ "p@x" ≠ "s@x" ∧
     getByEmailCore (⟨[], [], 1, 0⟩ : DB) "t9" "p@x" = .error .employeeNotFound ∧
     (MergeEmployees ⟨some "t9", some "u1"⟩ ⟨⟨[], [], 1, 0⟩, false, 0, []⟩
        "p@x" "s@x").1 = .error .employeeNotFound) ∧
    (getByEmailCore (⟨[⟨1, "t9", "J", "D", 5, 5⟩], [⟨1, "t9", "p@x", 5⟩], 2, 5⟩ : DB)
        "t9" "p@x" = .ok (some ⟨1, "t9", ["p@x"], "J", "D", 5, 5⟩) ∧
     getByEmailCore (⟨[⟨1, "t9", "J", "D", 5, 5⟩], [⟨1, "t9", "p@x", 5⟩], 2, 5⟩ : DB)
        "t9" "s@x" = .error .employeeNotFound ∧
     (MergeEmployees ⟨some "t9", some "u1"⟩
        ⟨⟨[⟨1, "t9", "J", "D", 5, 5⟩], [⟨1, "t9", "p@x", 5⟩], 2, 5⟩, false, 0, []⟩
        "p@x" "s@x").1 = .error .employeeNotFound) :=
  ⟨⟨rfl, by decide, rfl,
    c4_merge_missing_email_gives_generic_not_found.1 ⟨some "t9", some "u1"⟩
      ⟨⟨[], [], 1, 0⟩, false, 0, []⟩ "t9" "p@x" "s@x" rfl (by decide) rfl⟩,
   ⟨rfl, rfl,
    c4_merge_missing_email_gives_generic_not_found.2 ⟨some "t9", some "u1"⟩
      ⟨⟨[⟨1, "t9", "J", "D", 5, 5⟩], [⟨1, "t9", "p@x", 5⟩], 2, 5⟩, false, 0, []⟩
      "t9" "p@x" "s@x" ⟨1, "t9", ["p@x"], "J", "D", 5, 5⟩ rfl (by decide) rfl rfl⟩⟩

/-- C8 counterexample: an operation whose context carries a tenant id but
no user id succeeds instead of failing with Unauthorized: GetUserID does
fail closed, but CreateEmployee discards its failure
(`userID, _ := GetUserID(ctx)`) and completes the create. -/
theorem c8_counterexample :
    GetUserID ⟨some "t1", none⟩ = .error .userNotFound ∧
    (CreateEmployee ⟨some "t1", none⟩ ⟨⟨[], [], 1, 5⟩, true, 0, []⟩
        ⟨0, "", ["a@x"], "J", "D", 0, 0⟩).1 =
      .ok (some ⟨1, "t1", ["a@x"], "J", "D", 5, 5⟩) := ⟨rfl, rfl⟩

/-- C8 (amended): tenant-scope resolution fails closed on the tenant
component only.  GetUserID itself fails with Unauthorized when the user
id is absent or empty, but every Usecase operation ignores that failure:
the operation's outcome (result, and returned state for the read-only
operations) is independent of the user id carried by the context, which
is consumed, as the empty string when missing, only in event payloads. -/
theorem c8_user_missing_is_ignored_by_operations (ctx : Ctx) (st : St)
    (h : ctx.userId = none ∨ ctx.userId = some "") :
    GetUserID ctx = .error .userNotFound ∧
    Err.userNotFound.isUnauthorized = true ∧
    (∀ u2 employee, (CreateEmployee { ctx with userId := u2 } st employee).1 =
      (CreateEmployee ctx st employee).1) ∧
    (∀ u2 employee, (UpdateEmployee { ctx with userId := u2 } st employee).1 =
      (UpdateEmployee ctx st employee).1) ∧
    (∀ u2 id, (DeleteEmployee { ctx with userId := u2 } st id).1 =
      (DeleteEmployee ctx st id).1) ∧
    (∀ u2 id, GetEmployee { ctx with userId := u2 } st id = GetEmployee ctx st id) ∧
    (∀ u2 email, GetEmployeeByEmail { ctx with userId := u2 } st email =
      GetEmployeeByEmail ctx st email) ∧
    (∀ u2 filter, ListEmployees { ctx with userId := u2 } st filter =
      ListEmployees ctx st filter) ∧
    (∀ u2 p s, (MergeEmployees { ctx with userId := u2 } st p s).1 =
      (MergeEmployees ctx st p s).1) := by
  have hu : GetUserID ctx = .error .userNotFound := by
    unfold GetUserID
    rcases h with h | h
    · rw [h]
    · rw [h]
      simp
  refine ⟨hu, rfl, ?_, ?_, ?_, fun u2 id => rfl, fun u2 email => rfl,
    fun u2 filter => rfl, ?_⟩
  · intro u2 employee
    have hctx : GetTenantID { ctx with userId := u2 } = GetTenantID ctx := rfl
    simp only [CreateEmployee, hctx]
    repeat (first | rfl | split)
  · intro u2 employee
    have hctx : GetTenantID { ctx with userId := u2 } = GetTenantID ctx := rfl
    simp only [UpdateEmployee, hctx]
    repeat (first | rfl | split)
  · intro u2 id
    have hctx : GetTenantID { ctx with userId := u2 } = GetTenantID ctx := rfl
    simp only [DeleteEmployee, hctx]
    repeat (first | rfl | split)
  · intro u2 p s
    have hctx : GetTenantID { ctx with userId := u2 } = GetTenantID ctx := rfl
    simp only [MergeEmployees, hctx]
    repeat (first | rfl | split)

/-- C10 counterexample: updating an employee while supplying exactly its
existing email set still lists "emails" among the changed fields of the
Updated event: the usecase appends "emails" whenever a non-empty email
set is supplied, without comparing it against the existing set. -/
theorem c10_counterexample :
    (GetEmployee ⟨some "t1", some "u1"⟩
        ⟨⟨[⟨1, "t1", "J", "D", 5, 5⟩], [⟨1, "t1", "a@x", 5⟩], 2, 5⟩, true, 0, []⟩ 1).1 =
      .ok (some ⟨1, "t1", ["a@x"], "J", "D", 5, 5⟩) ∧
    (UpdateEmployee ⟨some "t1", some "u1"⟩
        ⟨⟨[⟨1, "t1", "J", "D", 5, 5⟩], [⟨1, "t1", "a@x", 5⟩], 2, 5⟩, true, 0, []⟩
        ⟨1, "", ["a@x"], "", "", 0, 0⟩).2.events =
      [.updated "t1" "u1" (some ⟨1, "t1", ["a@x"], "J", "D", 5, 5⟩) ["emails"]] :=
  ⟨rfl, rfl⟩

/-- Forward characterization of a successful employeeRepo.Create for a
fresh employee carrying a single email: the employee row and one email
row are appended and the hydrated record is returned. -/
theorem createCore_singleton_ok (db : DB) (T E : String) (emp : Employee)
    (hid : emp.id = 0) (hemails : emp.emails = [E])
    (hcA : emp.createdAt = 0) (huA : emp.updatedAt = 0)
    (hfresh : ∀ e ∈ db.employees, e.id ≠ db.nextId)
    (hnoE : ∀ r ∈ db.emailRows, ¬(r.tenantId = T ∧ r.email = E)) :
    createCore db T emp =
      .ok (some (rowToEntity
            ⟨db.employees ++ [⟨db.nextId, T, emp.firstName, emp.lastName, db.now, db.now⟩],
             db.emailRows ++ [⟨db.nextId, T, E, db.now⟩], db.nextId + 1, db.now⟩
            ⟨db.nextId, T, emp.firstName, emp.lastName, db.now, db.now⟩),
          ⟨db.employees ++ [⟨db.nextId, T, emp.firstName, emp.lastName, db.now, db.now⟩],
           db.emailRows ++ [⟨db.nextId, T, E, db.now⟩], db.nextId + 1, db.now⟩) := by
  have h0 : (emp.id == 0) = true := beq_iff_eq.mpr hid
  have hc0 : (emp.createdAt == 0) = true := beq_iff_eq.mpr hcA
  have hu0 : (emp.updatedAt == 0) = true := beq_iff_eq.mpr huA
  have hA : (db.employees.any (fun e => e.id == db.nextId)) = false := by
    rw [Bool.eq_false_iff]
    intro hany
    rcases List.any_eq_true.mp hany with ⟨e, he, hp⟩
    exact hfresh e he (beq_iff_eq.mp hp)
  have hrowIns : insertEmployeeRow { db with nextId := db.nextId + 1 }
      ⟨db.nextId, T, emp.firstName, emp.lastName, db.now, db.now⟩ =
      .ok ⟨db.employees ++ [⟨db.nextId, T, emp.firstName, emp.lastName, db.now, db.now⟩],
        db.emailRows, db.nextId + 1, db.now⟩ := by
    unfold insertEmployeeRow
    simp only [hA, Bool.false_eq_true, if_false]
  have hemailIns : insertEmailRows
      ⟨db.employees ++ [⟨db.nextId, T, emp.firstName, emp.lastName, db.now, db.now⟩],
        db.emailRows, db.nextId + 1, db.now⟩ [⟨db.nextId, T, E, db.now⟩] =
      .ok ⟨db.employees ++ [⟨db.nextId, T, emp.firstName, emp.lastName, db.now, db.now⟩],
        db.emailRows ++ [⟨db.nextId, T, E, db.now⟩], db.nextId + 1, db.now⟩ := by
    have := insertEmailRows_ok [⟨db.nextId, T, E, db.now⟩]
      ⟨db.employees ++ [⟨db.nextId, T, emp.firstName, emp.lastName, db.now, db.now⟩],
        db.emailRows, db.nextId + 1, db.now⟩
      (by
        intro row hrow r hr
        rcases List.mem_singleton.mp hrow with rfl
        exact hnoE r hr)
      (List.pairwise_singleton _ _)
      (by
        intro row hrow
        rcases List.mem_singleton.mp hrow with rfl
        exact ⟨⟨db.nextId, T, emp.firstName, emp.lastName, db.now, db.now⟩,
          List.mem_append_right _ (List.mem_singleton_self _), rfl⟩)
    exact this
  have hfind : (db.employees ++
      [(⟨db.nextId, T, emp.firstName, emp.lastName, db.now, db.now⟩ : EmployeeRow)]).find?
        (fun e => e.id == db.nextId && e.tenantId == T) =
      some ⟨db.nextId, T, emp.firstName, emp.lastName, db.now, db.now⟩ := by
    rw [List.find?_append]
    have hnone : db.employees.find? (fun e => e.id == db.nextId && e.tenantId == T) = none := by
      rw [List.find?_eq_none]
      intro e he hp
      simp only [Bool.and_eq_true, beq_iff_eq] at hp
      exact hfresh e he hp.1
    rw [hnone]
    simp [List.find?]
  have hgb : getByIdCore
      ⟨db.employees ++ [⟨db.nextId, T, emp.firstName, emp.lastName, db.now, db.now⟩],
        db.emailRows ++ [⟨db.nextId, T, E, db.now⟩], db.nextId + 1, db.now⟩ T db.nextId =
      .ok (some (rowToEntity
        ⟨db.employees ++ [⟨db.nextId, T, emp.firstName, emp.lastName, db.now, db.now⟩],
          db.emailRows ++ [⟨db.nextId, T, E, db.now⟩], db.nextId + 1, db.now⟩
        ⟨db.nextId, T, emp.firstName, emp.lastName, db.now, db.now⟩)) := by
    unfold getByIdCore
    rw [hfind]
  simp only [createCore, h0, if_true, hc0, hu0, hemails, List.map_cons, List.map_nil,
    hrowIns, hemailIns, hgb]

/-- publish touches only the event log. -/
theorem publish_db (st : St) (ev : Event) : (publish st ev).db = st.db := by
  unfold publish
  split <;> rfl

/-- Successful CreateEmployee for a fresh single-email employee: the
returned state appends the employee row and its email row, both carrying
the scope tenant. -/
theorem createEmployee_singleton_ok (ctx : Ctx) (st : St) (T E : String)
    (emp : Employee) (hT : GetTenantID ctx = .ok T) (hid : emp.id = 0)
    (hemails : emp.emails = [E]) (hcA : emp.createdAt = 0) (huA : emp.updatedAt = 0)
    (hfresh : ∀ e ∈ st.db.employees, e.id ≠ st.db.nextId)
    (hnoE : ∀ r ∈ st.db.emailRows, ¬(r.tenantId = T ∧ r.email = E)) :
    ∃ c st2, CreateEmployee ctx st emp = (.ok (some c), st2) ∧
      st2.db.employees = st.db.employees ++
        [⟨st.db.nextId, T, emp.firstName, emp.lastName, st.db.now, st.db.now⟩] ∧
      st2.db.emailRows = st.db.emailRows ++ [⟨st.db.nextId, T, E, st.db.now⟩] ∧
      st2.db.nextId = st.db.nextId + 1 ∧
      st2.db.now = st.db.now := by
  have hlen : (emp.emails.length == 0) = false := by
    rw [hemails]
    rfl
  have hnoEB : ∀ e ∈ emp.emails, emailExistsB st.db T e = false := by
    rw [hemails]
    intro e he
    rcases List.mem_singleton.mp he with rfl
    rw [Bool.eq_false_iff]
    intro hex
    rcases (emailExistsB_iff _ _ _).mp hex with ⟨r, hr, h1, h2⟩
    exact hnoE r hr ⟨h2, h1⟩
  rcases checkEmailsLoop_ok T emp.emails st hnoEB with ⟨st1, hloop, hdb1, _, _⟩
  have hcc := createCore_singleton_ok st.db T E { emp with tenantId := T }
    hid hemails hcA huA hfresh hnoE
  have heq : CreateEmployee ctx st emp =
      (.ok (some (rowToEntity
          ⟨st.db.employees ++ [⟨st.db.nextId, T, emp.firstName, emp.lastName, st.db.now, st.db.now⟩],
           st.db.emailRows ++ [⟨st.db.nextId, T, E, st.db.now⟩], st.db.nextId + 1, st.db.now⟩
          ⟨st.db.nextId, T, emp.firstName, emp.lastName, st.db.now, st.db.now⟩)),
       publish
         { bump st1 with db :=
            ⟨st.db.employees ++ [⟨st.db.nextId, T, emp.firstName, emp.lastName, st.db.now, st.db.now⟩],
             st.db.emailRows ++ [⟨st.db.nextId, T, E, st.db.now⟩], st.db.nextId + 1, st.db.now⟩ }
         (.created T (userIdOrEmpty ctx) (some (rowToEntity
          ⟨st.db.employees ++ [⟨st.db.nextId, T, emp.firstName, emp.lastName, st.db.now, st.db.now⟩],
           st.db.emailRows ++ [⟨st.db.nextId, T, E, st.db.now⟩], st.db.nextId + 1, st.db.now⟩
          ⟨st.db.nextId, T, emp.firstName, emp.lastName, st.db.now, st.db.now⟩)))) := by
    simp only [CreateEmployee, hT, hlen, Bool.false_eq_true, if_false, hloop, repoCreate]
    rw [hdb1, hcc]
  refine ⟨_, _, heq, ?_, ?_, ?_, ?_⟩ <;> rw [publish_db]

/-- C1: email uniqueness is scoped exactly per tenant.  First, when some
employee already owns email E in tenant T, CreateEmployee supplying E in
T fails with ErrEmployeeAlreadyExists before any write (database and
event log unchanged).  Second, for two distinct tenants, creating a fresh
employee with the same email E in each — the second create running on the
state left by the first — both succeed. -/
theorem c1_email_uniqueness_scoped_per_tenant :
    (∀ (ctx : Ctx) (st : St) (T E : String) (emp : Employee),
       GetTenantID ctx = .ok T → E ∈ emp.emails →
       (∃ r ∈ st.db.emailRows, r.tenantId = T ∧ r.email = E) →
       (CreateEmployee ctx st emp).1 = .error .employeeAlreadyExists ∧
       (CreateEmployee ctx st emp).2.db = st.db ∧
       (CreateEmployee ctx st emp).2.events = st.events) ∧
    (∀ (ctx1 ctx2 : Ctx) (st : St) (T1 T2 E : String) (emp1 emp2 : Employee),
       T1 ≠ T2 → GetTenantID ctx1 = .ok T1 → GetTenantID ctx2 = .ok T2 →
       emp1.id = 0 → emp1.emails = [E] → emp1.createdAt = 0 → emp1.updatedAt = 0 →
       emp2.id = 0 → emp2.emails = [E] → emp2.createdAt = 0 → emp2.updatedAt = 0 →
       (∀ e ∈ st.db.employees, e.id < st.db.nextId) →
       (∀ r ∈ st.db.emailRows, ¬(r.tenantId = T1 ∧ r.email = E)) →
       (∀ r ∈ st.db.emailRows, ¬(r.tenantId = T2 ∧ r.email = E)) →
       ∃ c1 st1 c2 st2, CreateEmployee ctx1 st emp1 = (.ok (some c1), st1) ∧
         CreateEmployee ctx2 st1 emp2 = (.ok (some c2), st2)) := by
  constructor
  · intro ctx st T E emp hT hmem hex
    have hlen : (emp.emails.length == 0) = false := by
      rcases hm : emp.emails with _ | ⟨a, rest⟩
      · rw [hm] at hmem
        cases hmem
      · rfl
    have hexB : emailExistsB st.db T E = true := by
      rw [emailExistsB_iff]
      rcases hex with ⟨r, hr, h1, h2⟩
      exact ⟨r, hr, h2, h1⟩
    rcases checkEmailsLoop_hit T emp.emails st E hmem hexB with ⟨st1, hloop, hdb, hev⟩
    have heq : CreateEmployee ctx st emp = (.error .employeeAlreadyExists, st1) := by
      simp only [CreateEmployee, hT, hlen, Bool.false_eq_true, if_false, hloop]
    rw [heq]
    exact ⟨rfl, hdb, hev⟩
  · intro ctx1 ctx2 st T1 T2 E emp1 emp2 hT12 hT1 hT2 hid1 he1 hcA1 huA1
      hid2 he2 hcA2 huA2 hlt hno1 hno2
    have hfresh1 : ∀ e ∈ st.db.employees, e.id ≠ st.db.nextId :=
      fun e he => Nat.ne_of_lt (hlt e he)
    rcases createEmployee_singleton_ok ctx1 st T1 E emp1 hT1 hid1 he1 hcA1 huA1
      hfresh1 hno1 with ⟨c1, st1, heq1, hemp1, hmail1, hnext1, _⟩
    have hfresh2 : ∀ e ∈ st1.db.employees, e.id ≠ st1.db.nextId := by
      rw [hemp1, hnext1]
      intro e he
      rcases List.mem_append.mp he with h | h
      · have := hlt e h
        omega
      · rcases List.mem_singleton.mp h with rfl
        simp
    have hno2b : ∀ r ∈ st1.db.emailRows, ¬(r.tenantId = T2 ∧ r.email = E) := by
      rw [hmail1]
      intro r hr
      rcases List.mem_append.mp hr with h | h
      · exact hno2 r h
      · rcases List.mem_singleton.mp h with rfl
        rintro ⟨hTT, _⟩
        exact hT12 hTT
    rcases createEmployee_singleton_ok ctx2 st1 T2 E emp2 hT2 hid2 he2 hcA2 huA2
      hfresh2 hno2b with ⟨c2, st2, heq2, _, _, _, _⟩
    exact ⟨c1, st1, c2, st2, heq1, heq2⟩

/-- Witness for C1 at concrete inputs: tenant t1 already owning a@x
rejects a second a@x; tenants t1 and t2 independently create a@x. -/
theorem c1_witness :
    (GetTenantID ⟨some "t1", some "u1"⟩ = .ok "t1" ∧
     "a@x" ∈ (["a@x"] : List String) ∧
     (∃ r ∈ [(⟨1, "t1", "a@x", 5⟩ : EmailRow)], r.tenantId = "t1" ∧ r.email = "a@x") ∧
     (CreateEmployee ⟨some "t1", some "u1"⟩
        ⟨⟨[⟨1, "t1", "J", "D", 5, 5⟩], [⟨1, "t1", "a@x", 5⟩], 2, 5⟩, true, 0, []⟩
        ⟨0, "", ["a@x"], "K", "L", 0, 0⟩).1 = .error .employeeAlreadyExists) ∧
    (∃ c1 st1 c2 st2,
      CreateEmployee ⟨some "t1", some "u1"⟩ ⟨⟨[], [], 1, 5⟩, true, 0, []⟩
          ⟨0, "", ["a@x"], "J", "D", 0, 0⟩ = (.ok (some c1), st1) ∧
      CreateEmployee ⟨some "t2", some "u2"⟩ st1 ⟨0, "", ["a@x"], "K", "L", 0, 0⟩ =
        (.ok (some c2), st2)) := by
  constructor
  · refine ⟨rfl, by decide, by decide, ?_⟩
    exact (c1_email_uniqueness_scoped_per_tenant.1 ⟨some "t1", some "u1"⟩
      ⟨⟨[⟨1, "t1", "J", "D", 5, 5⟩], [⟨1, "t1", "a@x", 5⟩], 2, 5⟩, true, 0, []⟩
      "t1" "a@x" ⟨0, "", ["a@x"], "K", "L", 0, 0⟩ rfl (by decide) (by decide)).1
  · exact c1_email_uniqueness_scoped_per_tenant.2 ⟨some "t1", some "u1"⟩
      ⟨some "t2", some "u2"⟩ ⟨⟨[], [], 1, 5⟩, true, 0, []⟩ "t1" "t2" "a@x"
      ⟨0, "", ["a@x"], "J", "D", 0, 0⟩ ⟨0, "", ["a@x"], "K", "L", 0, 0⟩
      (by decide) rfl rfl rfl rfl rfl rfl rfl rfl rfl rfl
      (by decide) (by decide) (by decide)

/-- The CreateEmployee pre-check loop never touches the database. -/
theorem checkEmailsLoop_db (t : String) :
    ∀ (es : List String) (st : St), (checkEmailsLoop st t es).2.db = st.db
  | [], _ => rfl
  | e :: rest, st => by
    simp only [checkEmailsLoop, repoCheckEmailExists]
    by_cases h : emailExistsB st.db t e = true
    · rw [if_pos h]
      rfl
    · rw [if_neg h]
      exact checkEmailsLoop_db t rest (bump st)

/-- The UpdateEmployee ownership loop never touches the database. -/
theorem checkNewEmailsLoop_db (t : String) (owned : List String) :
    ∀ (es : List String) (st : St), (checkNewEmailsLoop st t owned es).2.db = st.db
  | [], _ => rfl
  | e :: rest, st => by
    simp only [checkNewEmailsLoop]
    by_cases hc : (owned.contains e) = true
    · rw [if_pos hc]
      exact checkNewEmailsLoop_db t owned rest st
    · rw [if_neg hc]
      simp only [repoCheckEmailExists]
      by_cases h : emailExistsB st.db t e = true
      · rw [if_pos h]
        rfl
      · rw [if_neg h]
        exact checkNewEmailsLoop_db t owned rest (bump st)

/-- Inversion of a successful employees-row insert. -/
theorem insertEmployeeRow_ok_inv (db : DB) (row : EmployeeRow) (db1 : DB)
    (h : insertEmployeeRow db row = .ok db1) :
    db1 = { db with employees := db.employees ++ [row] } := by
  unfold insertEmployeeRow at h
  by_cases hc : (db.employees.any (fun e => e.id == row.id)) = true
  · rw [if_pos hc] at h
    cases h
  · rw [if_neg hc] at h
    cases h
    rfl

/-- Inversion of a successful repository read by id: the returned record
is the hydration of a stored row matching both the id and the tenant. -/
theorem getByIdCore_ok_inv (db : DB) (T : String) (id : Nat)
    (res : Option Employee) (h : getByIdCore db T id = .ok res) :
    ∃ row, db.employees.find? (fun e => e.id == id && e.tenantId == T) = some row ∧
      res = some (rowToEntity db row) ∧ row.id = id ∧ row.tenantId = T ∧
      row ∈ db.employees := by
  unfold getByIdCore at h
  cases hf : db.employees.find? (fun e => e.id == id && e.tenantId == T) with
  | none => rw [hf] at h; cases h
  | some row =>
    rw [hf] at h
    cases h
    have hp := List.find?_some hf
    simp only [Bool.and_eq_true, beq_iff_eq] at hp
    exact ⟨row, rfl, rfl, hp.1, hp.2, List.mem_of_find?_eq_some hf⟩

/-- Inversion of a successful repository read by email. -/
theorem getByEmailCore_ok_inv (db : DB) (T email : String)
    (res : Option Employee) (h : getByEmailCore db T email = .ok res) :
    ∃ er, db.emailRows.find? (fun r => r.email == email && r.tenantId == T) = some er ∧
      getByIdCore db T er.employeeId = .ok res ∧ er.email = email ∧
      er.tenantId = T ∧ er ∈ db.emailRows := by
  unfold getByEmailCore at h
  cases hf : db.emailRows.find? (fun r => r.email == email && r.tenantId == T) with
  | none => rw [hf] at h; cases h
  | some er =>
    rw [hf] at h
    have hp := List.find?_some hf
    simp only [Bool.and_eq_true, beq_iff_eq] at hp
    exact ⟨er, rfl, h, hp.1, hp.2, List.mem_of_find?_eq_some hf⟩

/-- Inversion of the transaction tail of employeeRepo.Create (employee
insert, email inserts, post-commit re-read), for an already-determined id
and employee row. -/
theorem createTail_inv (dbG : DB) (T : String) (emp : Employee) (id : Nat)
    (row : EmployeeRow) (hrowT : row.tenantId = T)
    (res : Option Employee) (db2 : DB)
    (h : (match insertEmployeeRow dbG row with
          | .error e => .error e
          | .ok db1 =>
            match insertEmailRows db1 (emp.emails.map (fun email =>
                ({ employeeId := id, tenantId := T, email := email,
                   createdAt := dbG.now } : EmailRow))) with
            | .error e => .error e
            | .ok db2 =>
              match getByIdCore db2 T id with
              | .error e => .error e
              | .ok res => .ok (res, db2)) =
        (.ok (res, db2) : Except Err (Option Employee × DB))) :
    (∀ c, res = some c → c.tenantId = T) ∧
    (∀ r2 ∈ db2.employees, r2 ∈ dbG.employees ∨ r2.tenantId = T) ∧
    (∀ r ∈ db2.emailRows, r ∈ dbG.emailRows ∨ r.tenantId = T) := by
  cases hins : insertEmployeeRow dbG row with
  | error e1 =>
    rw [hins] at h
    cases h
  | ok db1 =>
    rw [hins] at h
    dsimp only at h
    have hdb1 := insertEmployeeRow_ok_inv _ _ _ hins
    cases hmails : insertEmailRows db1 (emp.emails.map (fun email =>
        ({ employeeId := id, tenantId := T, email := email,
           createdAt := dbG.now } : EmailRow))) with
    | error e2 =>
      rw [hmails] at h
      dsimp only at h
      cases h
    | ok dbM =>
      rw [hmails] at h
      dsimp only at h
      rcases insertEmailRows_ok_eq _ _ _ hmails with ⟨hMemp, hMrows, _, _⟩
      cases hgb : getByIdCore dbM T id with
      | error e3 =>
        rw [hgb] at h
        dsimp only at h
        cases h
      | ok res2 =>
        rw [hgb] at h
        dsimp only at h
        cases h
        rcases getByIdCore_ok_inv _ _ _ _ hgb with ⟨row2, _, hres, _, hrow2T, _⟩
        refine ⟨?_, ?_, ?_⟩
        · intro c hc
          rw [hres] at hc
          cases hc
          exact hrow2T
        · intro r2 hr2
          rw [hMemp, hdb1] at hr2
          rcases List.mem_append.mp hr2 with hold | hnew
          · exact Or.inl hold
          · rcases List.mem_singleton.mp hnew with rfl
            exact Or.inr hrowT
        · intro r hr
          rw [hMrows, hdb1] at hr
          rcases List.mem_append.mp hr with hold | hnew
          · exact Or.inl hold
          · rcases List.mem_map.mp hnew with ⟨em, _, hr2⟩
            rw [← hr2]
            exact Or.inr rfl

/-- Inversion of a successful employeeRepo.Create: every stored row
either predates the call or carries the scope tenant, and a returned
record carries the scope tenant. -/
theorem createCore_ok_inv (db : DB) (T : String) (emp : Employee)
    (res : Option Employee) (db2 : DB)
    (h : createCore db T emp = .ok (res, db2)) :
    (∀ c, res = some c → c.tenantId = T) ∧
    (∀ row ∈ db2.employees, row ∈ db.employees ∨ row.tenantId = T) ∧
    (∀ r ∈ db2.emailRows, r ∈ db.emailRows ∨ r.tenantId = T) := by
  unfold createCore at h
  by_cases hid0 : (emp.id == 0) = true
  · simp only [hid0, if_true] at h
    exact createTail_inv { db with nextId := db.nextId + 1 } T emp db.nextId _ rfl res db2 h
  · simp only [hid0, Bool.false_eq_true, if_false] at h
    exact createTail_inv db T emp emp.id _ rfl res db2 h

/-- Inversion of a successful employeeRepo.Update: every stored row
either predates the call or carries the scope tenant, and a returned
record carries the scope tenant. -/
theorem updateCore_ok_inv (db : DB) (T : String) (emp : Employee)
    (res : Option Employee) (db2 : DB)
    (h : updateCore db T emp = .ok (res, db2)) :
    (∀ c, res = some c → c.tenantId = T) ∧
    (∀ row ∈ db2.employees, row ∈ db.employees ∨ row.tenantId = T) ∧
    (∀ r ∈ db2.emailRows, r ∈ db.emailRows ∨ r.tenantId = T) := by
  have hmap : ∀ row ∈ db.employees.map (applyUpdate db.now T emp),
      row ∈ db.employees ∨ row.tenantId = T := by
    intro row hrow
    rcases List.mem_map.mp hrow with ⟨e, he, hfe⟩
    unfold applyUpdate at hfe
    by_cases hcond : (e.id == emp.id && e.tenantId == T) = true
    · rw [if_pos hcond] at hfe
      right
      rw [← hfe]
      simp only [Bool.and_eq_true, beq_iff_eq] at hcond
      exact hcond.2
    · rw [if_neg hcond] at hfe
      left
      rw [← hfe]
      exact he
  unfold updateCore at h
  dsimp only at h
  split at h
  · cases h
  · split at h
    · cases h
    · rename_i db2x heq
      split at h
      · cases h
      · rename_i res2 hgb
        cases h
        rcases getByIdCore_ok_inv _ _ _ _ hgb with ⟨row2, _, hres, _, hrow2T, _⟩
        have hdb2x : (∀ row ∈ db2.employees,
              row ∈ db.employees ∨ row.tenantId = T) ∧
            (∀ r ∈ db2.emailRows, r ∈ db.emailRows ∨ r.tenantId = T) := by
          split at heq
          · cases heq
            exact ⟨hmap, fun r hr => Or.inl hr⟩
          · rcases insertEmailRows_ok_eq _ _ _ heq with ⟨hMemp, hMrows, _, _⟩
            constructor
            · intro row hrow
              rw [hMemp] at hrow
              exact hmap row hrow
            · intro r hr
              rw [hMrows] at hr
              rcases List.mem_append.mp hr with hold | hnew
              · exact Or.inl (List.mem_of_mem_filter hold)
              · rcases List.mem_map.mp hnew with ⟨em, _, hr2⟩
                rw [← hr2]
                exact Or.inr rfl
        refine ⟨?_, hdb2x.1, hdb2x.2⟩
        intro c hc
        rw [hres] at hc
        cases hc
        exact hrow2T

/-- C7: the persisted tenant id comes exclusively from the resolved
Tenant Scope.  Two CreateEmployee (or UpdateEmployee) runs that differ
only in the caller-supplied employee.TenantID field are
indistinguishable, and on success the returned record carries the scope
tenant while every stored row either predates the call or carries the
scope tenant. -/
theorem c7_tenant_id_from_scope_only (ctx : Ctx) (st : St) (emp : Employee)
    (t2 T : String) (hT : GetTenantID ctx = .ok T) :
    CreateEmployee ctx st { emp with tenantId := t2 } = CreateEmployee ctx st emp ∧
    UpdateEmployee ctx st { emp with tenantId := t2 } = UpdateEmployee ctx st emp ∧
    (∀ c st2, CreateEmployee ctx st emp = (.ok (some c), st2) →
      c.tenantId = T ∧
      (∀ row ∈ st2.db.employees, row ∈ st.db.employees ∨ row.tenantId = T) ∧
      (∀ r ∈ st2.db.emailRows, r ∈ st.db.emailRows ∨ r.tenantId = T)) ∧
    (∀ c st2, UpdateEmployee ctx st emp = (.ok (some c), st2) →
      c.tenantId = T ∧
      (∀ row ∈ st2.db.employees, row ∈ st.db.employees ∨ row.tenantId = T) ∧
      (∀ r ∈ st2.db.emailRows, r ∈ st.db.emailRows ∨ r.tenantId = T)) := by
  refine ⟨rfl, rfl, ?_, ?_⟩
  · intro c st2 h
    simp only [CreateEmployee, hT] at h
    split at h
    · cases h
    · split at h
      · cases h
      · rename_i u st1 hcl
        have hst1 : st1.db = st.db := by
          have := checkEmailsLoop_db T emp.emails st
          rw [hcl] at this
          exact this
        split at h
        · cases h
        · rename_i created st2a heq
          unfold repoCreate at heq
          split at heq
          · cases heq
          · rename_i res db2 hcc
            cases heq
            cases h
            rcases createCore_ok_inv st1.db T { emp with tenantId := T } (some c) db2 hcc with
              ⟨hres, hemp, hrows⟩
            rw [hst1] at hemp hrows
            refine ⟨hres c rfl, ?_, ?_⟩
            · intro row hrow
              rw [publish_db] at hrow
              exact hemp row hrow
            · intro r hr
              rw [publish_db] at hr
              exact hrows r hr
  · intro c st2 h
    simp only [UpdateEmployee, hT, repoGetByID] at h
    split at h
    · cases h
    · cases h
    · rename_i existing st1 hgid
      have hg2 : bump st = st1 := congrArg Prod.snd hgid
      subst hg2
      split at h
      · cases h
      · rename_i u st2b hchk
        have hst2b : st2b.db = st.db := by
          split at hchk
          · cases hchk
            rfl
          · have hpres := checkNewEmailsLoop_db T existing.emails emp.emails (bump st)
            rw [hchk] at hpres
            exact hpres
        split at h
        · cases h
        · rename_i updated st3 heq
          unfold repoUpdate at heq
          split at heq
          · cases heq
          · rename_i res db2 hcc
            cases heq
            cases h
            rcases updateCore_ok_inv st2b.db T { emp with tenantId := T } (some c) db2 hcc with
              ⟨hres, hemp, hrows⟩
            rw [hst2b] at hemp hrows
            refine ⟨hres c rfl, ?_, ?_⟩
            · intro row hrow
              rw [publish_db] at hrow
              exact hemp row hrow
            · intro r hr
              rw [publish_db] at hr
              exact hrows r hr

/-- The UPDATE of employeeRepo.Update never changes a row's id. -/
theorem applyUpdate_id (now : Nat) (T : String) (emp : Employee) (e : EmployeeRow) :
    (applyUpdate now T emp e).id = e.id := by
  unfold applyUpdate
  split <;> rfl

/-- The UPDATE of employeeRepo.Update never changes a row's tenant. -/
theorem applyUpdate_tenantId (now : Nat) (T : String) (emp : Employee) (e : EmployeeRow) :
    (applyUpdate now T emp e).tenantId = e.tenantId := by
  unfold applyUpdate
  split <;> rfl

/-- Under the primary-key constraint, an employees row is determined by
its id. -/
theorem employeeRow_unique {l : List EmployeeRow}
    (hPK : l.Pairwise (fun a b => a.id ≠ b.id)) {a b : EmployeeRow}
    (ha : a ∈ l) (hb : b ∈ l) (hid : a.id = b.id) : a = b := by
  by_contra hne
  induction l with
  | nil => cases ha
  | cons x xs ih =>
    rcases List.pairwise_cons.mp hPK with ⟨hx, hxs⟩
    rcases List.mem_cons.mp ha with rfl | ha2
    · rcases List.mem_cons.mp hb with rfl | hb2
      · exact hne rfl
      · exact hx b hb2 hid
    · rcases List.mem_cons.mp hb with rfl | hb2
      · exact hx a ha2 hid.symm
      · exact ih hxs ha2 hb2

/-- C5: frame and effect of employeeRepo.Update on an existing employee.
An empty firstName or lastName leaves the stored value unchanged while a
non-empty one overwrites it; an empty supplied email set leaves the email
rows untouched while a non-empty one fully replaces the employee's email
rows (delete-then-insert); and updatedAt is refreshed to the current time
on every update, whatever fields are supplied.  Rows of other employees
are never touched. -/
theorem c5_update_partial_field_semantics (db : DB) (T : String) (emp : Employee)
    (eRow : EmployeeRow)
    (hPK : db.employees.Pairwise (fun a b => a.id ≠ b.id))
    (hmem : eRow ∈ db.employees) (hrid : eRow.id = emp.id) (hrten : eRow.tenantId = T)
    (hI2 : ∀ r ∈ db.emailRows, r.employeeId = emp.id → r.tenantId = T)
    (hok : emp.emails = [] ∨
      (emp.emails.Nodup ∧ ∀ em ∈ emp.emails, ∀ r ∈ db.emailRows,
        r.tenantId = T → r.email = em → r.employeeId = emp.id)) :
    ∃ u db2, updateCore db T emp = .ok (some u, db2) ∧
      db2.employees = db.employees.map (applyUpdate db.now T emp) ∧
      db2.emailRows = (if emp.emails = [] then db.emailRows
        else db.emailRows.filter (fun r => !(r.employeeId == emp.id && r.tenantId == T))
          ++ emp.emails.map (fun em => ⟨emp.id, T, em, db.now⟩)) ∧
      u.updatedAt = db.now ∧
      u.firstName = (if emp.firstName = "" then eRow.firstName else emp.firstName) ∧
      u.lastName = (if emp.lastName = "" then eRow.lastName else emp.lastName) ∧
      u.emails = (if emp.emails = [] then
          (db.emailRows.filter (fun r => r.employeeId == emp.id)).map (fun r => r.email)
        else emp.emails) := by
  have hpred : (eRow.id == emp.id && eRow.tenantId == T) = true := by
    simp [hrid, hrten]
  have hhits : ((db.employees.filter
      (fun e => e.id == emp.id && e.tenantId == T)).length == 0) = false := by
    rw [Bool.eq_false_iff]
    intro hz
    have hmemf : eRow ∈ db.employees.filter (fun e => e.id == emp.id && e.tenantId == T) :=
      List.mem_filter.mpr ⟨hmem, hpred⟩
    rw [List.length_eq_zero.mp (beq_iff_eq.mp hz)] at hmemf
    cases hmemf
  have hfindE : db.employees.find? (fun e => e.id == emp.id && e.tenantId == T) =
      some eRow := by
    refine find?_eq_some_of_unique hmem hpred ?_
    intro a ha hpa
    simp only [Bool.and_eq_true, beq_iff_eq] at hpa
    exact employeeRow_unique hPK ha hmem (by rw [hpa.1, hrid])
  have hfind2 : (db.employees.map (applyUpdate db.now T emp)).find?
      (fun e => e.id == emp.id && e.tenantId == T) =
      some (applyUpdate db.now T emp eRow) := by
    rw [List.find?_map _ _]
    have hcong : db.employees.find?
        ((fun e => e.id == emp.id && e.tenantId == T) ∘ applyUpdate db.now T emp) =
        db.employees.find? (fun e => e.id == emp.id && e.tenantId == T) := by
      refine find?_congr_pred ?_
      intro x _
      simp [Function.comp, applyUpdate_id, applyUpdate_tenantId]
    rw [hcong, hfindE]
    rfl
  have happ : applyUpdate db.now T emp eRow =
      { eRow with
          updatedAt := db.now
          firstName := if emp.firstName == "" then eRow.firstName else emp.firstName
          lastName := if emp.lastName == "" then eRow.lastName else emp.lastName } := by
    unfold applyUpdate
    rw [if_pos hpred]
  rcases hcase : emp.emails with _ | ⟨em0, emrest⟩
  · -- empty email set: rows untouched
    have hel : (emp.emails.length == 0) = true := by rw [hcase]; rfl
    refine ⟨rowToEntity { db with employees := db.employees.map (applyUpdate db.now T emp) }
        (applyUpdate db.now T emp eRow),
      { db with employees := db.employees.map (applyUpdate db.now T emp) }, ?_, rfl, ?_, ?_, ?_, ?_, ?_⟩
    · unfold updateCore
      rw [if_neg (by rw [hhits]; exact Bool.false_ne_true)]
      dsimp only
      rw [if_pos hel]
      dsimp only
      rw [show getByIdCore { db with employees := db.employees.map (applyUpdate db.now T emp) }
            T emp.id =
          .ok (some (rowToEntity { db with employees := db.employees.map (applyUpdate db.now T emp) }
            (applyUpdate db.now T emp eRow))) from by
        unfold getByIdCore
        rw [hfind2]]
    · simp
    · rw [happ]
      rfl
    · rw [happ]
      by_cases hf : emp.firstName = "" <;> simp [rowToEntity, hf]
    · rw [happ]
      by_cases hf : emp.lastName = "" <;> simp [rowToEntity, hf]
    · unfold rowToEntity employeeEmails
      simp only [applyUpdate_id, hrid]
      simp
  · -- non-empty email set: delete-then-insert
    rw [← hcase]
    have hne : emp.emails ≠ [] := by rw [hcase]; exact List.cons_ne_nil _ _
    have hel : (emp.emails.length == 0) = false := by
      rw [hcase]
      rfl
    rcases hok with hempty | ⟨hnodup, hfree⟩
    · exact absurd hempty hne
    have hI2b : ∀ r ∈ db.emailRows.filter
        (fun r => !(r.employeeId == emp.id && r.tenantId == T)),
        ¬(r.tenantId = T ∧ ∃ em ∈ emp.emails, r.email = em) := by
      intro r hr ⟨hrT, em, hem, hrem⟩
      rcases List.mem_filter.mp hr with ⟨hrmem, hrp⟩
      have : r.employeeId = emp.id := hfree em hem r hrmem hrT hrem
      simp [this, hrT] at hrp
    have hins := insertEmailRows_ok
      (emp.emails.map (fun em => (⟨emp.id, T, em, db.now⟩ : EmailRow)))
      { db with
          employees := db.employees.map (applyUpdate db.now T emp)
          emailRows := db.emailRows.filter
            (fun r => !(r.employeeId == emp.id && r.tenantId == T)) }
      (by
        intro row hrow r hr
        rcases List.mem_map.mp hrow with ⟨em, hem, hr2⟩
        rintro ⟨hT2, hE2⟩
        rw [← hr2] at hT2 hE2
        exact hI2b r hr ⟨hT2, em, hem, hE2⟩)
      (by
        rw [List.pairwise_map]
        refine hnodup.imp ?_
        intro a b hab
        rintro ⟨_, hEq⟩
        exact hab hEq)
      (by
        intro row hrow
        rcases List.mem_map.mp hrow with ⟨em, _, hr2⟩
        refine ⟨applyUpdate db.now T emp eRow,
          List.mem_map_of_mem _ hmem, ?_⟩
        rw [applyUpdate_id, hrid, ← hr2])
    refine ⟨rowToEntity
        { db with
            employees := db.employees.map (applyUpdate db.now T emp)
            emailRows := db.emailRows.filter
                (fun r => !(r.employeeId == emp.id && r.tenantId == T))
              ++ emp.emails.map (fun em => ⟨emp.id, T, em, db.now⟩) }
        (applyUpdate db.now T emp eRow),
      { db with
          employees := db.employees.map (applyUpdate db.now T emp)
          emailRows := db.emailRows.filter
              (fun r => !(r.employeeId == emp.id && r.tenantId == T))
            ++ emp.emails.map (fun em => ⟨emp.id, T, em, db.now⟩) },
      ?_, rfl, ?_, ?_, ?_, ?_, ?_⟩
    · unfold updateCore
      rw [if_neg (by rw [hhits]; exact Bool.false_ne_true)]
      dsimp only
      rw [if_neg (by rw [hel]; exact Bool.false_ne_true)]
      rw [hins]
      dsimp only
      rw [show getByIdCore
          { db with
              employees := db.employees.map (applyUpdate db.now T emp)
              emailRows := db.emailRows.filter
                  (fun r => !(r.employeeId == emp.id && r.tenantId == T))
                ++ emp.emails.map (fun em => ⟨emp.id, T, em, db.now⟩) } T emp.id =
          .ok (some (rowToEntity
            { db with
                employees := db.employees.map (applyUpdate db.now T emp)
                emailRows := db.emailRows.filter
                    (fun r => !(r.employeeId == emp.id && r.tenantId == T))
                  ++ emp.emails.map (fun em => ⟨emp.id, T, em, db.now⟩) }
            (applyUpdate db.now T emp eRow))) from by
        unfold getByIdCore
        rw [hfind2]]
    · rw [if_neg hne]
    · rw [happ]
      rfl
    · rw [happ]
      by_cases hf : emp.firstName = "" <;> simp [rowToEntity, hf]
    · rw [happ]
      by_cases hf : emp.lastName = "" <;> simp [rowToEntity, hf]
    · rw [if_neg hne]
      unfold rowToEntity employeeEmails
      simp only [applyUpdate_id, hrid, List.filter_append]
      have hleft : (db.emailRows.filter
          (fun r => !(r.employeeId == emp.id && r.tenantId == T))).filter
            (fun r => r.employeeId == emp.id) = [] := by
        rw [List.filter_eq_nil_iff]
        intro r hr hp
        rcases List.mem_filter.mp hr with ⟨hrmem, hrq⟩
        have hrid2 : r.employeeId = emp.id := beq_iff_eq.mp hp
        have hrT : r.tenantId = T := hI2 r hrmem hrid2
        simp [hrid2, hrT] at hrq
      have hright : (emp.emails.map
          (fun em => (⟨emp.id, T, em, db.now⟩ : EmailRow))).filter
            (fun r => r.employeeId == emp.id) =
          emp.emails.map (fun em => (⟨emp.id, T, em, db.now⟩ : EmailRow)) := by
        rw [List.filter_eq_self]
        intro r hr
        rcases List.mem_map.mp hr with ⟨em, _, hr2⟩
        rw [← hr2]
        exact beq_iff_eq.mpr rfl
      rw [hleft, hright]
      simp [List.map_map, Function.comp_def]

/-- Witness for C5 at a concrete database: employee 1 updated with a new
first name, an empty last name and the replacement email set [c@x]. -/
theorem c5_witness :
    ∃ u db2,
      updateCore ⟨[⟨1, "t1", "J", "D", 3, 3⟩, ⟨2, "t1", "A", "B", 4, 4⟩],
          [⟨1, "t1", "a@x", 3⟩, ⟨2, "t1", "b@x", 4⟩], 3, 9⟩ "t1"
          ⟨1, "", ["c@x"], "N", "", 0, 0⟩ = .ok (some u, db2) ∧
      db2.employees = (⟨[⟨1, "t1", "J", "D", 3, 3⟩, ⟨2, "t1", "A", "B", 4, 4⟩],
          [⟨1, "t1", "a@x", 3⟩, ⟨2, "t1", "b@x", 4⟩], 3, 9⟩ : DB).employees.map
        (applyUpdate 9 "t1" ⟨1, "", ["c@x"], "N", "", 0, 0⟩) ∧
      db2.emailRows = (if (⟨1, "", ["c@x"], "N", "", 0, 0⟩ : Employee).emails = []
        then (⟨[⟨1, "t1", "J", "D", 3, 3⟩, ⟨2, "t1", "A", "B", 4, 4⟩],
          [⟨1, "t1", "a@x", 3⟩, ⟨2, "t1", "b@x", 4⟩], 3, 9⟩ : DB).emailRows
        else (⟨[⟨1, "t1", "J", "D", 3, 3⟩, ⟨2, "t1", "A", "B", 4, 4⟩],
          [⟨1, "t1", "a@x", 3⟩, ⟨2, "t1", "b@x", 4⟩], 3, 9⟩ : DB).emailRows.filter
            (fun r => !(r.employeeId == 1 && r.tenantId == "t1"))
          ++ ["c@x"].map (fun em => ⟨1, "t1", em, 9⟩)) ∧
      u.updatedAt = 9 ∧
      u.firstName = (if ("N" : String) = "" then "J" else "N") ∧
      u.lastName = (if ("" : String) = "" then "D" else "") ∧
      u.emails = (if (["c@x"] : List String) = [] then
          ((⟨[⟨1, "t1", "J", "D", 3, 3⟩, ⟨2, "t1", "A", "B", 4, 4⟩],
            [⟨1, "t1", "a@x", 3⟩, ⟨2, "t1", "b@x", 4⟩], 3, 9⟩ : DB).emailRows.filter
              (fun r => r.employeeId == 1)).map (fun r => r.email)
        else ["c@x"]) :=
  c5_update_partial_field_semantics
    ⟨[⟨1, "t1", "J", "D", 3, 3⟩, ⟨2, "t1", "A", "B", 4, 4⟩],
      [⟨1, "t1", "a@x", 3⟩, ⟨2, "t1", "b@x", 4⟩], 3, 9⟩ "t1"
    ⟨1, "", ["c@x"], "N", "", 0, 0⟩ ⟨1, "t1", "J", "D", 3, 3⟩
    (by decide) (by decide) rfl rfl (by decide) (by decide)

/-- Witness for C7: a caller-supplied tenant id EVIL has no effect, and a
successful create stores and returns tenant t1 from scope. -/
theorem c7_witness :
    GetTenantID ⟨some "t1", some "u1"⟩ = .ok "t1" ∧
    CreateEmployee ⟨some "t1", some "u1"⟩ ⟨⟨[], [], 1, 5⟩, true, 0, []⟩
        ⟨0, "EVIL", ["a@x"], "J", "D", 0, 0⟩ =
      CreateEmployee ⟨some "t1", some "u1"⟩ ⟨⟨[], [], 1, 5⟩, true, 0, []⟩
        ⟨0, "", ["a@x"], "J", "D", 0, 0⟩ ∧
    (∀ c st2, CreateEmployee ⟨some "t1", some "u1"⟩ ⟨⟨[], [], 1, 5⟩, true, 0, []⟩
        ⟨0, "", ["a@x"], "J", "D", 0, 0⟩ = (.ok (some c), st2) → c.tenantId = "t1") :=
  ⟨rfl,
   (c7_tenant_id_from_scope_only ⟨some "t1", some "u1"⟩ ⟨⟨[], [], 1, 5⟩, true, 0, []⟩
      ⟨0, "", ["a@x"], "J", "D", 0, 0⟩ "EVIL" "t1" rfl).1,
   fun c st2 h =>
     ((c7_tenant_id_from_scope_only ⟨some "t1", some "u1"⟩ ⟨⟨[], [], 1, 5⟩, true, 0, []⟩
        ⟨0, "", ["a@x"], "J", "D", 0, 0⟩ "EVIL" "t1" rfl).2.2.1 c st2 h).1⟩

/-- Witness for the amended C8 at a concrete context. -/
theorem c8_witness :
    GetUserID ⟨some "t1", none⟩ = .error .userNotFound ∧
    (CreateEmployee ⟨some "t1", some "u9"⟩ ⟨⟨[], [], 1, 5⟩, true, 0, []⟩
        ⟨0, "", ["a@x"], "J", "D", 0, 0⟩).1 =
      (CreateEmployee ⟨some "t1", none⟩ ⟨⟨[], [], 1, 5⟩, true, 0, []⟩
        ⟨0, "", ["a@x"], "J", "D", 0, 0⟩).1 :=
  ⟨(c8_user_missing_is_ignored_by_operations ⟨some "t1", none⟩
      ⟨⟨[], [], 1, 5⟩, true, 0, []⟩ (Or.inl rfl)).1,
   (c8_user_missing_is_ignored_by_operations ⟨some "t1", none⟩
      ⟨⟨[], [], 1, 5⟩, true, 0, []⟩ (Or.inl rfl)).2.2.1 (some "u9")
      ⟨0, "", ["a@x"], "J", "D", 0, 0⟩⟩

/-- The bulk UPDATE of a merge never changes an email row's address. -/
theorem reassignEmail_email (sId pId : Nat) (T : String) (r : EmailRow) :
    (reassignEmail sId pId T r).email = r.email := by
  unfold reassignEmail
  split <;> rfl

/-- The bulk UPDATE of a merge never changes an email row's tenant. -/
theorem reassignEmail_tenantId (sId pId : Nat) (T : String) (r : EmailRow) :
    (reassignEmail sId pId T r).tenantId = r.tenantId := by
  unfold reassignEmail
  split <;> rfl

/-- Forward characterization of a successful employeeRepo.MergeEmployees
transaction: with both email rows resolving and belonging to distinct
employees, every email row of the secondary employee is reassigned to the
primary id, the secondary employee row is deleted (the cascade then
touches nothing), and the re-read hydrated primary record is returned. -/
theorem mergeCore_ok (db : DB) (T pE sE : String) (pRow sRow : EmailRow)
    (eP : EmployeeRow)
    (hfp : db.emailRows.find? (fun r => r.email == pE && r.tenantId == T) = some pRow)
    (hfs : db.emailRows.find? (fun r => r.email == sE && r.tenantId == T) = some sRow)
    (hneq : pRow.employeeId ≠ sRow.employeeId)
    (hOwnS : ∀ r ∈ db.emailRows, r.employeeId = sRow.employeeId → r.tenantId = T)
    (hPK : db.employees.Pairwise (fun a b => a.id ≠ b.id))
    (hfeP : db.employees.find?
      (fun e => e.id == pRow.employeeId && e.tenantId == T) = some eP) :
    mergeCore db T pE sE =
      .ok (some (rowToEntity
          ⟨db.employees.filter
              (fun e => !(e.id == sRow.employeeId && e.tenantId == T)),
            db.emailRows.map
              (reassignEmail sRow.employeeId pRow.employeeId T),
            db.nextId, db.now⟩ eP),
        ⟨db.employees.filter
            (fun e => !(e.id == sRow.employeeId && e.tenantId == T)),
          db.emailRows.map
            (reassignEmail sRow.employeeId pRow.employeeId T),
          db.nextId, db.now⟩) := by
  have hpP := List.find?_some hfeP
  simp only [Bool.and_eq_true, beq_iff_eq] at hpP
  have hNoS : ∀ r ∈ db.emailRows.map (reassignEmail sRow.employeeId pRow.employeeId T),
      r.employeeId ≠ sRow.employeeId := by
    intro r hr
    rcases List.mem_map.mp hr with ⟨r0, hr0, hrr⟩
    unfold reassignEmail at hrr
    by_cases hc : (r0.employeeId == sRow.employeeId && r0.tenantId == T) = true
    · rw [if_pos hc] at hrr
      rw [← hrr]
      exact hneq
    · rw [if_neg hc] at hrr
      rw [← hrr]
      intro hrid
      refine hc ?_
      have hten := hOwnS r0 hr0 hrid
      simp [hrid, hten]
  have hreassign_p : reassignEmail sRow.employeeId pRow.employeeId T pRow = pRow := by
    have hcondF : (pRow.employeeId == sRow.employeeId && pRow.tenantId == T) = false := by
      rw [Bool.eq_false_iff]
      intro hc
      simp only [Bool.and_eq_true, beq_iff_eq] at hc
      exact hneq hc.1
    unfold reassignEmail
    rw [hcondF]
    simp
  have hfind2 : (db.emailRows.map
      (reassignEmail sRow.employeeId pRow.employeeId T)).find?
        (fun r => r.email == pE && r.tenantId == T) = some pRow := by
    rw [List.find?_map _ _]
    have hcong : db.emailRows.find?
        ((fun r => r.email == pE && r.tenantId == T) ∘
          reassignEmail sRow.employeeId pRow.employeeId T) =
        db.emailRows.find? (fun r => r.email == pE && r.tenantId == T) := by
      refine find?_congr_pred ?_
      intro x _
      simp [Function.comp, reassignEmail_email, reassignEmail_tenantId]
    rw [hcong, hfp]
    simp [hreassign_p]
  have hkeep : (db.emailRows.map
      (reassignEmail sRow.employeeId pRow.employeeId T)).filter
        (fun r => !((db.employees.filter
          (fun e => e.id == sRow.employeeId && e.tenantId == T)).any
            (fun e => e.id == r.employeeId))) =
      db.emailRows.map (reassignEmail sRow.employeeId pRow.employeeId T) := by
    rw [List.filter_eq_self]
    intro r hr
    have hany : ((db.employees.filter
        (fun e => e.id == sRow.employeeId && e.tenantId == T)).any
          (fun e => e.id == r.employeeId)) = false := by
      rw [Bool.eq_false_iff]
      intro hAny
      rcases List.any_eq_true.mp hAny with ⟨e, he, hp⟩
      rcases List.mem_filter.mp he with ⟨_, hq⟩
      simp only [Bool.and_eq_true, beq_iff_eq] at hq
      refine hNoS r hr ?_
      rw [← beq_iff_eq.mp hp]
      exact hq.1
    simp [hany]
  have hfeP2 : (db.employees.filter
      (fun e => !(e.id == sRow.employeeId && e.tenantId == T))).find?
        (fun e => e.id == pRow.employeeId && e.tenantId == T) = some eP := by
    refine find?_eq_some_of_unique ?_ ?_ ?_
    · refine List.mem_filter.mpr ⟨List.mem_of_find?_eq_some hfeP, ?_⟩
      have hne2 : (eP.id == sRow.employeeId) = false := by
        rw [Bool.eq_false_iff]
        intro hc
        refine hneq ?_
        rw [← hpP.1, beq_iff_eq.mp hc]
      simp [hne2]
    · simp [hpP.1, hpP.2]
    · intro a ha hpa
      simp only [Bool.and_eq_true, beq_iff_eq] at hpa
      exact employeeRow_unique hPK (List.mem_of_mem_filter ha)
        (List.mem_of_find?_eq_some hfeP) (by rw [hpa.1, hpP.1])
  unfold mergeCore
  rw [hfp]
  dsimp only
  rw [hfs]
  dsimp only [deleteEmployeeRow]
  rw [hkeep, hfind2]
  dsimp only
  unfold getByIdCore
  rw [hfeP2]

/-- Deleting the secondary employee row does not disturb the lookup of
the primary row: under the primary-key constraint, the primary is still
found after the rows matching a different id are filtered out. -/
theorem find?_after_secondary_delete (l : List EmployeeRow) (pId sId : Nat)
    (T : String) (eP : EmployeeRow)
    (hPK : l.Pairwise (fun a b => a.id ≠ b.id))
    (hfeP : l.find? (fun e => e.id == pId && e.tenantId == T) = some eP)
    (hne : pId ≠ sId) :
    (l.filter (fun e => !(e.id == sId && e.tenantId == T))).find?
      (fun e => e.id == pId && e.tenantId == T) = some eP := by
  have hpP := List.find?_some hfeP
  simp only [Bool.and_eq_true, beq_iff_eq] at hpP
  refine find?_eq_some_of_unique ?_ ?_ ?_
  · refine List.mem_filter.mpr ⟨List.mem_of_find?_eq_some hfeP, ?_⟩
    have hne2 : (eP.id == sId) = false := by
      rw [Bool.eq_false_iff]
      intro hc
      refine hne ?_
      rw [← hpP.1, beq_iff_eq.mp hc]
    simp [hne2]
  · simp [hpP.1, hpP.2]
  · intro a ha hpa
    simp only [Bool.and_eq_true, beq_iff_eq] at hpa
    exact employeeRow_unique hPK (List.mem_of_mem_filter ha)
      (List.mem_of_find?_eq_some hfeP) (by rw [hpa.1, hpP.1])

/-- C2: after a successful merge of two distinct employees of one tenant,
every email previously owned by the secondary employee is owned by the
primary (it appears in the returned record's email set and its row now
carries the primary's id), the secondary employee record is gone,
getByEmail on either input email resolves to the same (primary) record,
and getById on the secondary id returns NotFound. -/
theorem c2_merge_absorbs_secondary (ctx : Ctx) (st : St) (T pE sE : String)
    (P S : Employee)
    (hPK : st.db.employees.Pairwise (fun a b => a.id ≠ b.id))
    (hI2 : ∀ r ∈ st.db.emailRows, ∃ e ∈ st.db.employees,
      e.id = r.employeeId ∧ e.tenantId = r.tenantId)
    (hT : GetTenantID ctx = .ok T) (hpe : pE ≠ sE)
    (hp : getByEmailCore st.db T pE = .ok (some P))
    (hs : getByEmailCore st.db T sE = .ok (some S))
    (hPS : P.id ≠ S.id) :
    ∃ M st2, MergeEmployees ctx st pE sE = (.ok (some M), st2) ∧
      M.id = P.id ∧
      (∀ r ∈ st.db.emailRows, r.employeeId = S.id →
        r.email ∈ M.emails ∧ ∃ r2 ∈ st2.db.emailRows,
          r2.email = r.email ∧ r2.tenantId = r.tenantId ∧ r2.employeeId = P.id) ∧
      (∀ e ∈ st2.db.employees, e.id ≠ S.id) ∧
      (GetEmployeeByEmail ctx st2 sE).1 = .ok (some M) ∧
      (GetEmployeeByEmail ctx st2 pE).1 = .ok (some M) ∧
      (GetEmployee ctx st2 S.id).1 = .error .employeeNotFound := by
  rcases getByEmailCore_ok_inv _ _ _ _ hp with ⟨pRow, hfp, hgp, hpE, hpT, hpMem⟩
  rcases getByIdCore_ok_inv _ _ _ _ hgp with ⟨eP, hfeP, hPval, hePid, hePT, hePmem⟩
  rcases getByEmailCore_ok_inv _ _ _ _ hs with ⟨sRow, hfs, hgs, hsE, hsT, hsMem⟩
  rcases getByIdCore_ok_inv _ _ _ _ hgs with ⟨eS, hfeS, hSval, heSid, heST, heSmem⟩
  have hPeq : P = rowToEntity st.db eP := Option.some.inj hPval
  have hSeq : S = rowToEntity st.db eS := Option.some.inj hSval
  have hPid : P.id = pRow.employeeId := by rw [hPeq]; exact hePid
  have hSid : S.id = sRow.employeeId := by rw [hSeq]; exact heSid
  have hneq : pRow.employeeId ≠ sRow.employeeId := by
    rw [← hPid, ← hSid]
    exact hPS
  have hOwnS : ∀ r ∈ st.db.emailRows, r.employeeId = sRow.employeeId →
      r.tenantId = T := by
    intro r hr hrid
    rcases hI2 r hr with ⟨e, hemem, heid, heten⟩
    have heq2 : e = eS := employeeRow_unique hPK hemem heSmem (by rw [heid, hrid, heSid])
    rw [← heten, heq2, heST]
  have hmc := mergeCore_ok st.db T pE sE pRow sRow eP hfp hfs hneq hOwnS hPK hfeP
  have hbe : (pE == sE) = false := beq_eq_false_iff_ne.mpr hpe
  have hbid : (P.id == S.id) = false := beq_eq_false_iff_ne.mpr hPS
  have heq : MergeEmployees ctx st pE sE =
      (.ok (some (rowToEntity
          ⟨st.db.employees.filter
              (fun e => !(e.id == sRow.employeeId && e.tenantId == T)),
            st.db.emailRows.map
              (reassignEmail sRow.employeeId pRow.employeeId T),
            st.db.nextId, st.db.now⟩ eP)),
        publish
          { bump (bump (bump st)) with db :=
            ⟨st.db.employees.filter
                (fun e => !(e.id == sRow.employeeId && e.tenantId == T)),
              st.db.emailRows.map
                (reassignEmail sRow.employeeId pRow.employeeId T),
              st.db.nextId, st.db.now⟩ }
          (.merged T (userIdOrEmpty ctx)
            (some (rowToEntity
              ⟨st.db.employees.filter
                  (fun e => !(e.id == sRow.employeeId && e.tenantId == T)),
                st.db.emailRows.map
                  (reassignEmail sRow.employeeId pRow.employeeId T),
                st.db.nextId, st.db.now⟩ eP)) sE)) := by
    simp only [MergeEmployees, hT, hbe, Bool.false_eq_true, if_false,
      repoGetByEmail, bump, hp, hs, hbid, repoMerge, hmc]
  refine ⟨_, _, heq, ?_, ?_, ?_, ?_, ?_, ?_⟩
  · rw [hPid]
    exact hePid
  · intro r hr hrS
    have hrid : r.employeeId = sRow.employeeId := by rw [hrS, hSid]
    have hrT : r.tenantId = T := hOwnS r hr hrid
    have hcond : (r.employeeId == sRow.employeeId && r.tenantId == T) = true := by
      simp [hrid, hrT]
    have hφr : reassignEmail sRow.employeeId pRow.employeeId T r =
        { r with employeeId := pRow.employeeId } := by
      unfold reassignEmail
      rw [if_pos hcond]
    have hmem2 : { r with employeeId := pRow.employeeId } ∈
        st.db.emailRows.map (reassignEmail sRow.employeeId pRow.employeeId T) := by
      rw [← hφr]
      exact List.mem_map_of_mem _ hr
    constructor
    · show r.email ∈ (employeeEmails _ eP.id).map (fun r => r.email)
      unfold employeeEmails
      refine List.mem_map.mpr ⟨{ r with employeeId := pRow.employeeId },
        List.mem_filter.mpr ⟨hmem2, ?_⟩, rfl⟩
      simp [hePid]
    · refine ⟨{ r with employeeId := pRow.employeeId }, ?_, rfl, rfl, ?_⟩
      · rw [publish_db]
        exact hmem2
      · rw [hPid]
  · intro e he hcontra
    rw [publish_db] at he
    rcases List.mem_filter.mp he with ⟨hemem, hpredB⟩
    have heq2 : e = eS := employeeRow_unique hPK hemem heSmem
      (by rw [hcontra, hSid, heSid])
    have h1 : e.id = sRow.employeeId := by rw [hcontra, hSid]
    have h2 : e.tenantId = T := by rw [heq2, heST]
    simp [h1, h2] at hpredB
  · simp only [GetEmployeeByEmail, hT, repoGetByEmail, publish_db]
    have hφs : reassignEmail sRow.employeeId pRow.employeeId T sRow =
        { sRow with employeeId := pRow.employeeId } := by
      unfold reassignEmail
      rw [if_pos (by simp [hsT])]
    have hfindX : (st.db.emailRows.map
        (reassignEmail sRow.employeeId pRow.employeeId T)).find?
          (fun r => r.email == sE && r.tenantId == T) =
        some { sRow with employeeId := pRow.employeeId } := by
      rw [List.find?_map _ _]
      have hcong : st.db.emailRows.find?
          ((fun r => r.email == sE && r.tenantId == T) ∘
            reassignEmail sRow.employeeId pRow.employeeId T) =
          st.db.emailRows.find? (fun r => r.email == sE && r.tenantId == T) := by
        refine find?_congr_pred ?_
        intro x _
        simp [Function.comp, reassignEmail_email, reassignEmail_tenantId]
      rw [hcong, hfs]
      simp [hφs]
    have hgX : getByIdCore
        ⟨st.db.employees.filter
            (fun e => !(e.id == sRow.employeeId && e.tenantId == T)),
          st.db.emailRows.map
            (reassignEmail sRow.employeeId pRow.employeeId T),
          st.db.nextId, st.db.now⟩ T pRow.employeeId =
        .ok (some (rowToEntity
          ⟨st.db.employees.filter
              (fun e => !(e.id == sRow.employeeId && e.tenantId == T)),
            st.db.emailRows.map
              (reassignEmail sRow.employeeId pRow.employeeId T),
            st.db.nextId, st.db.now⟩ eP)) := by
      unfold getByIdCore
      rw [find?_after_secondary_delete st.db.employees pRow.employeeId
        sRow.employeeId T eP hPK hfeP hneq]
    unfold getByEmailCore
    rw [hfindX]
    dsimp only
    rw [hgX]
  · simp only [GetEmployeeByEmail, hT, repoGetByEmail, publish_db]
    have hφp : reassignEmail sRow.employeeId pRow.employeeId T pRow = pRow := by
      have hcondF : (pRow.employeeId == sRow.employeeId && pRow.tenantId == T) = false := by
        rw [Bool.eq_false_iff]
        intro hc
        simp only [Bool.and_eq_true, beq_iff_eq] at hc
        exact hneq hc.1
      unfold reassignEmail
      rw [hcondF]
      simp
    have hfindX : (st.db.emailRows.map
        (reassignEmail sRow.employeeId pRow.employeeId T)).find?
          (fun r => r.email == pE && r.tenantId == T) = some pRow := by
      rw [List.find?_map _ _]
      have hcong : st.db.emailRows.find?
          ((fun r => r.email == pE && r.tenantId == T) ∘
            reassignEmail sRow.employeeId pRow.employeeId T) =
          st.db.emailRows.find? (fun r => r.email == pE && r.tenantId == T) := by
        refine find?_congr_pred ?_
        intro x _
        simp [Function.comp, reassignEmail_email, reassignEmail_tenantId]
      rw [hcong, hfp]
      simp [hφp]
    have hgX : getByIdCore
        ⟨st.db.employees.filter
            (fun e => !(e.id == sRow.employeeId && e.tenantId == T)),
          st.db.emailRows.map
            (reassignEmail sRow.employeeId pRow.employeeId T),
          st.db.nextId, st.db.now⟩ T pRow.employeeId =
        .ok (some (rowToEntity
          ⟨st.db.employees.filter
              (fun e => !(e.id == sRow.employeeId && e.tenantId == T)),
            st.db.emailRows.map
              (reassignEmail sRow.employeeId pRow.employeeId T),
            st.db.nextId, st.db.now⟩ eP)) := by
      unfold getByIdCore
      rw [find?_after_secondary_delete st.db.employees pRow.employeeId
        sRow.employeeId T eP hPK hfeP hneq]
    unfold getByEmailCore
    rw [hfindX]
    dsimp only
    rw [hgX]
  · simp only [GetEmployee, hT, repoGetByID, publish_db]
    have hnone : getByIdCore
        ⟨st.db.employees.filter
            (fun e => !(e.id == sRow.employeeId && e.tenantId == T)),
          st.db.emailRows.map
            (reassignEmail sRow.employeeId pRow.employeeId T),
          st.db.nextId, st.db.now⟩ T S.id = .error .employeeNotFound := by
      unfold getByIdCore
      have hfnone : (st.db.employees.filter
          (fun e => !(e.id == sRow.employeeId && e.tenantId == T))).find?
            (fun e => e.id == S.id && e.tenantId == T) = none := by
        rw [List.find?_eq_none]
        intro e he hpe2
        rcases List.mem_filter.mp he with ⟨hemem, hpredB⟩
        simp only [Bool.and_eq_true, beq_iff_eq] at hpe2
        have heq2 : e = eS := employeeRow_unique hPK hemem heSmem
          (by rw [hpe2.1, hSid, heSid])
        have h1 : e.id = sRow.employeeId := by rw [hpe2.1, hSid]
        have h2 : e.tenantId = T := hpe2.2
        simp [h1, h2] at hpredB
      rw [hfnone]
    rw [hnone]

/-- Witness for C2 at a concrete database: employee 1 owns p@x and
employee 2 owns s@x and s2@x in tenant t1; merging p@x with s@x transfers
both of employee 2's emails. -/
theorem c2_witness :
    ∃ M st2,
      MergeEmployees ⟨some "t1", some "u1"⟩
          ⟨⟨[⟨1, "t1", "J", "D", 5, 5⟩, ⟨2, "t1", "K", "L", 5, 5⟩],
            [⟨1, "t1", "p@x", 5⟩, ⟨2, "t1", "s@x", 5⟩, ⟨2, "t1", "s2@x", 5⟩], 3, 5⟩,
            true, 0, []⟩ "p@x" "s@x" = (.ok (some M), st2) ∧
      M.id = (⟨1, "t1", ["p@x"], "J", "D", 5, 5⟩ : Employee).id ∧
      (∀ r ∈ [(⟨1, "t1", "p@x", 5⟩ : EmailRow), ⟨2, "t1", "s@x", 5⟩, ⟨2, "t1", "s2@x", 5⟩],
        r.employeeId = (⟨2, "t1", ["s@x", "s2@x"], "K", "L", 5, 5⟩ : Employee).id →
        r.email ∈ M.emails ∧ ∃ r2 ∈ st2.db.emailRows,
          r2.email = r.email ∧ r2.tenantId = r.tenantId ∧
          r2.employeeId = (⟨1, "t1", ["p@x"], "J", "D", 5, 5⟩ : Employee).id) ∧
      (∀ e ∈ st2.db.employees,
        e.id ≠ (⟨2, "t1", ["s@x", "s2@x"], "K", "L", 5, 5⟩ : Employee).id) ∧
      (GetEmployeeByEmail ⟨some "t1", some "u1"⟩ st2 "s@x").1 = .ok (some M) ∧
      (GetEmployeeByEmail ⟨some "t1", some "u1"⟩ st2 "p@x").1 = .ok (some M) ∧
      (GetEmployee ⟨some "t1", some "u1"⟩ st2
        (⟨2, "t1", ["s@x", "s2@x"], "K", "L", 5, 5⟩ : Employee).id).1 =
        .error .employeeNotFound :=
  c2_merge_absorbs_secondary ⟨some "t1", some "u1"⟩
    ⟨⟨[⟨1, "t1", "J", "D", 5, 5⟩, ⟨2, "t1", "K", "L", 5, 5⟩],
      [⟨1, "t1", "p@x", 5⟩, ⟨2, "t1", "s@x", 5⟩, ⟨2, "t1", "s2@x", 5⟩], 3, 5⟩,
      true, 0, []⟩ "t1" "p@x" "s@x"
    ⟨1, "t1", ["p@x"], "J", "D", 5, 5⟩ ⟨2, "t1", ["s@x", "s2@x"], "K", "L", 5, 5⟩
    (by decide) (by decide) rfl (by decide) rfl rfl (by decide)

/-- C10 (amended): on a successful UpdateEmployee with a publisher
present, the Updated event appended to the log carries a changed-field
list in which "first_name" and "last_name" appear exactly when the
supplied value is non-empty and differs from the existing record, while
"emails" appears exactly when the supplied email set is non-empty — the
email set is never compared against the existing set. -/
theorem c10_updated_event_fields (ctx : Ctx) (st : St) (T : String)
    (emp existing : Employee) (ures : Option Employee) (db2 : DB)
    (hT : GetTenantID ctx = .ok T)
    (hpub : st.hasPublisher = true)
    (hGet : getByIdCore st.db T emp.id = .ok (some existing))
    (hchk : ∀ e ∈ emp.emails, e ∉ existing.emails → emailExistsB st.db T e = false)
    (hupd : updateCore st.db T { emp with tenantId := T } = .ok (ures, db2)) :
    ∃ st3, UpdateEmployee ctx st emp = (.ok ures, st3) ∧
      st3.db = db2 ∧
      ∃ fields, st3.events = st.events ++
          [.updated T (userIdOrEmpty ctx) ures fields] ∧
        ("emails" ∈ fields ↔ emp.emails ≠ []) ∧
        ("first_name" ∈ fields ↔
          (emp.firstName ≠ "" ∧ emp.firstName ≠ existing.firstName)) ∧
        ("last_name" ∈ fields ↔
          (emp.lastName ≠ "" ∧ emp.lastName ≠ existing.lastName)) := by
  have hf1 : ("emails" ∈ updatedFieldsOf existing emp ↔ emp.emails ≠ []) := by
    unfold updatedFieldsOf
    rcases emp.emails with _ | ⟨e0, erest⟩ <;>
      by_cases hA : emp.firstName ≠ "" ∧ emp.firstName ≠ existing.firstName <;>
      by_cases hB : emp.lastName ≠ "" ∧ emp.lastName ≠ existing.lastName <;>
      simp +decide [hA, hB]
  have hf2 : ("first_name" ∈ updatedFieldsOf existing emp ↔
      (emp.firstName ≠ "" ∧ emp.firstName ≠ existing.firstName)) := by
    unfold updatedFieldsOf
    rcases emp.emails with _ | ⟨e0, erest⟩ <;>
      by_cases hA : emp.firstName ≠ "" ∧ emp.firstName ≠ existing.firstName <;>
      by_cases hB : emp.lastName ≠ "" ∧ emp.lastName ≠ existing.lastName <;>
      simp +decide [hA, hB]
  have hf3 : ("last_name" ∈ updatedFieldsOf existing emp ↔
      (emp.lastName ≠ "" ∧ emp.lastName ≠ existing.lastName)) := by
    unfold updatedFieldsOf
    rcases emp.emails with _ | ⟨e0, erest⟩ <;>
      by_cases hA : emp.firstName ≠ "" ∧ emp.firstName ≠ existing.firstName <;>
      by_cases hB : emp.lastName ≠ "" ∧ emp.lastName ≠ existing.lastName <;>
      simp +decide [hA, hB]
  by_cases hel : (emp.emails.length == 0) = true
  · have heq : UpdateEmployee ctx st emp =
        (.ok ures, publish { bump (bump st) with db := db2 }
          (.updated T (userIdOrEmpty ctx) ures (updatedFieldsOf existing emp))) := by
      simp only [UpdateEmployee, hT, repoGetByID, hGet, hel, if_true, repoUpdate]
      have hbdb : (bump st).db = st.db := rfl
      rw [hbdb, hupd]
    refine ⟨_, heq, by rw [publish_db], updatedFieldsOf existing emp, ?_, hf1, hf2, hf3⟩
    unfold publish
    rw [if_pos (show ({ bump (bump st) with db := db2 } : St).hasPublisher = true from hpub)]
    rfl
  · rcases checkNewEmailsLoop_ok T existing.emails emp.emails (bump st)
      (fun e he hno => hchk e he hno) with ⟨st1, hloop, hdb1, hev1, hpub1⟩
    have heq : UpdateEmployee ctx st emp =
        (.ok ures, publish { bump st1 with db := db2 }
          (.updated T (userIdOrEmpty ctx) ures (updatedFieldsOf existing emp))) := by
      simp only [UpdateEmployee, hT, repoGetByID, hGet, hel, Bool.false_eq_true,
        if_false, hloop, repoUpdate]
      rw [hdb1]
      have hbdb : (bump st).db = st.db := rfl
      rw [hbdb, hupd]
    refine ⟨_, heq, by rw [publish_db], updatedFieldsOf existing emp, ?_, hf1, hf2, hf3⟩
    have hp2 : ({ bump st1 with db := db2 } : St).hasPublisher = true := by
      show st1.hasPublisher = true
      rw [hpub1]
      exact hpub
    unfold publish
    rw [if_pos hp2]
    dsimp only [bump]
    rw [hev1]
    rfl

/-- Witness for the amended C10: updating employee 1 with its unchanged
email set produces an Updated event whose field list contains "emails"
and nothing else. -/
theorem c10_witness :
    ∃ st3, UpdateEmployee ⟨some "t1", some "u1"⟩
        ⟨⟨[⟨1, "t1", "J", "D", 5, 5⟩], [⟨1, "t1", "a@x", 5⟩], 2, 5⟩, true, 0, []⟩
        ⟨1, "", ["a@x"], "", "", 0, 0⟩ =
        (.ok (some ⟨1, "t1", ["a@x"], "J", "D", 5, 5⟩), st3) ∧
      st3.db = ⟨[⟨1, "t1", "J", "D", 5, 5⟩], [⟨1, "t1", "a@x", 5⟩], 2, 5⟩ ∧
      ∃ fields, st3.events = [] ++
          [.updated "t1" "u1" (some ⟨1, "t1", ["a@x"], "J", "D", 5, 5⟩) fields] ∧
        ("emails" ∈ fields ↔ (["a@x"] : List String) ≠ []) ∧
        ("first_name" ∈ fields ↔ (("" : String) ≠ "" ∧ ("" : String) ≠ "J")) ∧
        ("last_name" ∈ fields ↔ (("" : String) ≠ "" ∧ ("" : String) ≠ "D")) :=
  c10_updated_event_fields ⟨some "t1", some "u1"⟩
    ⟨⟨[⟨1, "t1", "J", "D", 5, 5⟩], [⟨1, "t1", "a@x", 5⟩], 2, 5⟩, true, 0, []⟩
    "t1" ⟨1, "", ["a@x"], "", "", 0, 0⟩ ⟨1, "t1", ["a@x"], "J", "D", 5, 5⟩
    (some ⟨1, "t1", ["a@x"], "J", "D", 5, 5⟩)
    ⟨[⟨1, "t1", "J", "D", 5, 5⟩], [⟨1, "t1", "a@x", 5⟩], 2, 5⟩
    rfl rfl rfl (by decide) rfl

end EmployeeService
